import Mathlib

/-!
Shallow embedding of the `odb_poly_decomp` sweep-line rectangle decomposer.

The repository contains several coexisting drafts; the claims reference the
arena-based implementation living in `src/point.rs`, `src/node.rs`,
`src/edge.rs`, `src/geometry.rs`, `src/active.rs`, `src/edge_scans.rs` and
`src/decomposer.rs`, which is what is embedded here.  Arena ids
(`id_arena::Id`) are embedded as `Nat` indices into append-only lists;
`isize` coordinates are embedded as `Int`.  Rust functions that can panic
(`unwrap`, out-of-bounds indexing on arenas) are embedded with `Option`
results where a claim depends on the panic; arena lookups that are always
valid along the executed paths are embedded with a `getD` default.  `while`
loops are embedded as fuel recursion; every wrapper instantiates the fuel
with a bound that provably dominates the number of iterations the Rust loop
can make (each iteration strictly advances a cursor over a list whose length
the bound uses), except for the geometry-initialisation loop whose
non-termination on degenerate input is itself the subject of a claim.
-/

namespace PolyDecomp

/-- Embeds `Side` (named `Side` in `edge.rs`/`node.rs`/`decomposer.rs` and
`EdgeTy` in the `geometry.rs` draft; both are the same two-variant enum). -/
inductive Side where
  | Left
  | Right
deriving DecidableEq, Repr, Inhabited

/-- Embeds `Point` from `point.rs`: a 2D `isize` coordinate. -/
structure Point where
  x : Int
  y : Int
deriving DecidableEq, Repr, Inhabited

namespace Point

/-- Embeds `Point::new`. -/
def new (x y : Int) : Point := ⟨x, y⟩

/-- Embeds `Point::which_side`: compares `self.y` with `other.y`;
`Less ↦ Some(Left)`, `Equal ↦ None`, `Greater ↦ Some(Right)`. -/
def which_side (p other : Point) : Option Side :=
  if p.y < other.y then some Side.Left
  else if p.y = other.y then none
  else some Side.Right

/-- Embeds the strict part of the `PartialOrd`/`Ord` order on `Point`
(`point.rs`): by `y` ascending, ties broken by `x` ascending. -/
def lt (p q : Point) : Bool :=
  p.y < q.y || (p.y = q.y && p.x < q.x)

end Point

/-- Embeds `Node` from `node.rs`; edge ids are `Nat` arena indices. -/
structure Node where
  id : Nat
  point : Point
  inc_edge : Option Nat
  out_edge : Option Nat
deriving DecidableEq, Repr, Inhabited

namespace Node

/-- Embeds `Node::new`. -/
def new (point : Point) (id : Nat) (inc_edge out_edge : Option Nat) : Node :=
  ⟨id, point, inc_edge, out_edge⟩

/-- Embeds `Node::set_inc_edge` (a `debug_assert!` checks the slot is empty;
in release the `Option::replace` overwrites, which is what is embedded). -/
def set_inc_edge (n : Node) (inc : Nat) : Node :=
  { n with inc_edge := some inc }

/-- Embeds `Node::set_out_edge` (same remark as `set_inc_edge`). -/
def set_out_edge (n : Node) (out : Nat) : Node :=
  { n with out_edge := some out }

/-- Embeds `Node::take_in_edge` (called `take_inc_edge` at its call sites in
`geometry.rs`/`decomposer.rs`): `Option::take` returns the old value and
clears the slot. -/
def take_in_edge (n : Node) : Option Nat × Node :=
  (n.inc_edge, { n with inc_edge := none })

/-- Embeds `Node::take_out_edge`. -/
def take_out_edge (n : Node) : Option Nat × Node :=
  (n.out_edge, { n with out_edge := none })

/-- Embeds `Node::which_side`. -/
def which_side (n other : Node) : Option Side :=
  n.point.which_side other.point

/-- Embeds `Node::x`. -/
def x (n : Node) : Int := n.point.x

/-- Embeds `Node::y`. -/
def y (n : Node) : Int := n.point.y

end Node

/-- Embeds `Edge` from `edge.rs`; node ids are `Nat` arena indices. -/
structure Edge where
  id : Nat
  source : Nat
  target : Nat
  side : Side
deriving DecidableEq, Repr, Inhabited

/-- Embeds `Geometry` from `geometry.rs`: two append-only arenas.  An
`id_arena::Arena` hands out ids `0, 1, 2, …` in allocation order and
`Id::index()` recovers them, so the arenas are embedded as lists indexed by
position. -/
structure Geometry where
  nodes : List Node
  edges : List Edge
deriving DecidableEq, Repr, Inhabited

namespace Geometry

/-- Embeds the `Index<NodeId>` impl (`self.nodes.get(id).unwrap()`).  On the
executed paths the id is always live; an out-of-range id (a Rust panic) is
embedded by the `Inhabited` default node. -/
def nodeVal (g : Geometry) (i : Nat) : Node := g.nodes.getD i default

/-- Embeds the `Index<EdgeId>` impl; same remarks as `nodeVal`. -/
def edgeVal (g : Geometry) (i : Nat) : Edge := g.edges.getD i default

/-- Embeds an `IndexMut<NodeId>` mutation `self[i].f(…)` as a functional
update of slot `i` (out of range leaves the list unchanged; the Rust
counterpart would panic, which no executed path does). -/
def updateNode (g : Geometry) (i : Nat) (f : Node → Node) : Geometry :=
  { g with nodes := g.nodes.set i (f (g.nodeVal i)) }

/-- Embeds an `IndexMut<EdgeId>` mutation of edge slot `i`. -/
def updateEdge (g : Geometry) (i : Nat) (f : Edge → Edge) : Geometry :=
  { g with edges := g.edges.set i (f (g.edgeVal i)) }

/-- Embeds `Geometry::empty` (capacity hints do not affect semantics). -/
def empty : Geometry := ⟨[], []⟩

/-- Embeds `Geometry::new_node`: `alloc_with_id` allocates the next index and
stores `Node::new(point, id, in_edge, out_edge)`; returns the fresh id. -/
def new_node (g : Geometry) (point : Point) (in_edge out_edge : Option Nat) :
    Geometry × Nat :=
  let id := g.nodes.length
  ({ g with nodes := g.nodes ++ [Node.new point id in_edge out_edge] }, id)

/-- Embeds `Geometry::new_edge`: allocates `Edge::new(id, source, target, ty)`
with the next edge index, sets it as `source`'s outgoing and `target`'s
incoming edge, and returns `self[new_edge_id]` (which is exactly the edge
value just stored). -/
def new_edge (g : Geometry) (source target : Nat) (ty : Side) :
    Geometry × Edge :=
  let new_edge_id := g.edges.length
  let e : Edge := ⟨new_edge_id, source, target, ty⟩
  let g := { g with edges := g.edges ++ [e] }
  let g := g.updateNode source (fun n => n.set_out_edge new_edge_id)
  let g := g.updateNode target (fun n => n.set_inc_edge new_edge_id)
  (g, e)

/-- Embeds `Geometry::len_nodes`. -/
def len_nodes (g : Geometry) : Nat := g.nodes.length

/-- Embeds `Geometry::initialize_nodes`: one node per point, in order, with
empty edge slots; the returned `Vec<NodeId>` is `[0, …, n-1]`. -/
def initialize_nodes (g : Geometry) (points : List Point) : Geometry :=
  points.foldl (fun g p => (g.new_node p none none).fst) g

end Geometry

namespace Edge

/-- Embeds `Edge::source`. -/
def sourceNode (e : Edge) (g : Geometry) : Node := g.nodeVal e.source

/-- Embeds `Edge::target`. -/
def targetNode (e : Edge) (g : Geometry) : Node := g.nodeVal e.target

/-- Embeds `Edge::src_x`. -/
def src_x (e : Edge) (g : Geometry) : Int := (e.sourceNode g).x

/-- Embeds `Edge::src_y`. -/
def src_y (e : Edge) (g : Geometry) : Int := (e.sourceNode g).y

/-- Embeds `Edge::tgt_y`. -/
def tgt_y (e : Edge) (g : Geometry) : Int := (e.targetNode g).y

/-- Embeds `Edge::min_max_y`. -/
def min_max_y (e : Edge) (g : Geometry) : Int × Int :=
  (min (e.src_y g) (e.tgt_y g), max (e.src_y g) (e.tgt_y g))

/-- Embeds `Edge::contains_scanline`: `min_y <= scanline <= max_y`. -/
def contains_scanline (e : Edge) (g : Geometry) (scanline : Int) : Bool :=
  let (min_y, max_y) := e.min_max_y g
  min_y ≤ scanline && scanline ≤ max_y

/-- Embeds `Edge::scanline_strictly_inside`: `min_y < scanline < max_y`. -/
def scanline_strictly_inside (e : Edge) (g : Geometry) (scanline : Int) :
    Bool :=
  let (min_y, max_y) := e.min_max_y g
  min_y < scanline && scanline < max_y

/-- Embeds `Edge::set_source`. -/
def set_source (e : Edge) (new : Nat) : Edge := { e with source := new }

/-- Embeds `Edge::set_target`. -/
def set_target (e : Edge) (new : Nat) : Edge := { e with target := new }

end Edge

/-- Embeds `DecompErr`.  The `decomposer.rs` draft declares
`NotEnoughPoints` and `FailedScanlineUpdate`, while `geometry.rs`
additionally constructs `DecompErr::IsAlreadySimple`; the embedding carries
the union of the variants the referenced code uses. -/
inductive DecompErr where
  | NotEnoughPoints
  | IsAlreadySimple
  | FailedScanlineUpdate
deriving DecidableEq, Repr, Inhabited

namespace Geometry

/-- Embeds one iteration step plus loop of `initialize_nodes_and_edges`
(`geometry.rs`): starting from `(s, t) = (0, 1)`, repeatedly: if
`node_ids[s]` (which is just `s`) already has an outgoing edge, stop;
otherwise create an edge for the pair when `which_side` says the ys differ,
then advance `(s, t) := (t, (t+1) % n)`.  The Rust loop is unbounded
(`loop`), so the embedding takes explicit fuel and returns `none` when the
fuel is exhausted; on inputs where every cyclically consecutive pair of
points shares its y no out-edge is ever created and the Rust loop never
terminates (the embedding then returns `none` for every fuel). -/
def initEdgesLoop (fuel : Nat) (n : Nat) (g : Geometry) (s t : Nat) :
    Option Geometry :=
  match fuel with
  | 0 => none
  | fuel + 1 =>
    let source_node := g.nodeVal s
    if (source_node.out_edge).isSome then
      some g
    else
      let g' :=
        match source_node.which_side (g.nodeVal t) with
        | some side => (g.new_edge s t side).fst
        | none => g
      initEdgesLoop fuel n g' t ((t + 1) % n)

/-- Embeds `Geometry::initialize_nodes_and_edges`: allocate all nodes, then
run the pair-walking loop from `(0, 1)`.  The wrapper fuel `2 * n + 2`
dominates the `n + p + 1` iterations the loop makes whenever some cyclic
pair of points differs in y (where `p < n` is the first such index); when no
pair differs the loop diverges and the result is `none` for every fuel. -/
def initialize_nodes_and_edges (points : List Point) : Option Geometry :=
  let n := points.length
  let g := Geometry.empty.initialize_nodes points
  initEdgesLoop (2 * n + 2) n g 0 1

/-- Embeds `Geometry::new`: `n > 3` builds the geometry, `n = 3` is
`IsAlreadySimple`, anything else is `NotEnoughPoints`.  `none` stands for
the non-terminating construction loop. -/
def new (points : List Point) : Option (Except DecompErr Geometry) :=
  if points.length > 3 then
    (initialize_nodes_and_edges points).map Except.ok
  else if points.length = 3 then
    some (Except.error DecompErr.IsAlreadySimple)
  else
    some (Except.error DecompErr.NotEnoughPoints)

/-- Embeds `Geometry::split_edge` (`geometry.rs:190-259`): reads the stored
edge's `ty`; for `Left` the replaced endpoint is the source, for `Right` the
target; allocates a node at `(existing_x, scanline)`; rewires the original
edge onto the new node, clears the old endpoint's slot (`take_*`), points
the new node's complementary slot at the original edge; finally calls
`new_edge` (old endpoint ↔ new node, same `ty`) and returns its result —
i.e. the freshly created edge. -/
def split_edge (g : Geometry) (split_target : Nat) (scanline : Int) :
    Geometry × Edge :=
  let side := (g.edgeVal split_target).side
  let input_node :=
    match side with
    | Side.Left => (g.edgeVal split_target).source
    | Side.Right => (g.edgeVal split_target).target
  let existing_x := (g.nodeVal input_node).x
  let (g, new_node_id) :=
    g.new_node (Point.new existing_x scanline) none none
  match side with
  | Side.Left =>
    let g := g.updateEdge split_target (fun e => e.set_source new_node_id)
    let g := g.updateNode input_node (fun nd => (nd.take_out_edge).snd)
    let g := g.updateNode new_node_id (fun nd => nd.set_out_edge split_target)
    g.new_edge input_node new_node_id side
  | Side.Right =>
    let g := g.updateEdge split_target (fun e => e.set_target new_node_id)
    let g := g.updateNode input_node (fun nd => (nd.take_in_edge).snd)
    let g := g.updateNode new_node_id (fun nd => nd.set_inc_edge split_target)
    g.new_edge new_node_id input_node side

end Geometry

/-- Embeds `ActiveNodes` from `active.rs`: node ids plus a cursor. -/
structure ActiveNodes where
  nodes : List Nat
  cursor : Nat
deriving DecidableEq, Repr, Inhabited

namespace ActiveNodes

/-- Embeds `ActiveVec::peek_at`. -/
def peek_at (an : ActiveNodes) (ix : Nat) : Option Nat := an.nodes.get? ix

/-- Embeds `ActiveVec::peek`. -/
def peek (an : ActiveNodes) : Option Nat := an.peek_at an.cursor

/-- Embeds `ActiveVec::increment`. -/
def increment (an : ActiveNodes) : ActiveNodes :=
  { an with cursor := an.cursor + 1 }

/-- Embeds `ActiveVec::next_if`: peek, apply the caller's check, and advance
the cursor only when the check produced a value. -/
def next_if (an : ActiveNodes) (g : Geometry)
    (f : Geometry → Nat → Option Node) : Option Node × ActiveNodes :=
  match an.peek.bind (fun id => f g id) with
  | none => (none, an)
  | some node => (some node, an.increment)

/-- Embeds `ActiveNodes::finished`. -/
def finished (an : ActiveNodes) : Bool := an.cursor = an.nodes.length

/-- Embeds `ActiveNodes::scanline`: the y of the node at the cursor (the
`.into()` on an `isize` always yields `Some`, so this is `None` exactly when
the cursor is past the end). -/
def scanline (an : ActiveNodes) (g : Geometry) : Option Int :=
  an.peek.map (fun id => (g.nodeVal id).y)

/-- Helper for `sort`: insert `id` into an already-sorted list of node ids,
after every element not strictly greater (this reproduces the stable
`sort_by(|a, b| geometry[a].cmp(&geometry[b]))`, which orders by the `Point`
order: y ascending then x ascending). -/
def sortedInsert (g : Geometry) (id : Nat) : List Nat → List Nat
  | [] => [id]
  | b :: t =>
    if Point.lt (g.nodeVal id).point (g.nodeVal b).point then id :: b :: t
    else b :: sortedInsert g id t

/-- Embeds `ActiveNodes::sort` as a stable insertion sort by `Point` order. -/
def sort (an : ActiveNodes) (g : Geometry) : ActiveNodes :=
  { an with nodes := an.nodes.foldl (fun acc id => sortedInsert g id acc) [] }

end ActiveNodes

/-- Embeds `ActiveEdges` from `active.rs`: edge ids plus a cursor. -/
structure ActiveEdges where
  edges : List Nat
  cursor : Nat
deriving DecidableEq, Repr, Inhabited

namespace ActiveEdges

/-- Embeds `ActiveVec::peek_at`. -/
def peek_at (ae : ActiveEdges) (ix : Nat) : Option Nat := ae.edges.get? ix

/-- Embeds `ActiveVec::peek`. -/
def peek (ae : ActiveEdges) : Option Nat := ae.peek_at ae.cursor

/-- Embeds `ActiveVec::increment`. -/
def increment (ae : ActiveEdges) : ActiveEdges :=
  { ae with cursor := ae.cursor + 1 }

/-- Embeds `ActiveVec::next`: if an id sits at the cursor, advance and return
`geometry[id]`. -/
def next (ae : ActiveEdges) (g : Geometry) : Option Edge × ActiveEdges :=
  match ae.peek with
  | none => (none, ae)
  | some id => (some (g.edgeVal id), ae.increment)

/-- Embeds `ActiveVec::reset_cursor`. -/
def reset_cursor (ae : ActiveEdges) : ActiveEdges := { ae with cursor := 0 }

/-- Embeds `ActiveVec::finished` (`len() == cursor()`). -/
def finished (ae : ActiveEdges) : Bool := ae.edges.length = ae.cursor

/-- The source-x key `ActiveEdges::insert` compares on:
`geometry[id].src_x(geometry)`. -/
def srcXKey (g : Geometry) (id : Nat) : Int := (g.edgeVal id).src_x g

/-- Embeds the `while let Some(other) = self.next(geometry)` loop inside
`ActiveEdges::insert`: scan forward from cursor `c` over `items`; at the
first element whose source x is strictly greater than `x`, insert `idNew`
at that element's position (`self.edges.insert(self.cursor() - 1, id)`,
leaving the cursor just past the inserted slot); if the scan exhausts the
list, push at the end.  Each iteration advances the cursor, so the wrapper
fuel `items.length + 1` strictly dominates the iteration count and the
`fuel = 0` branch is unreachable from the wrapper. -/
def insertScan (g : Geometry) (x : Int) (idNew : Nat) :
    Nat → List Nat → Nat → List Nat × Nat
  | 0, items, c => (items, c)
  | fuel + 1, items, c =>
    match items.get? c with
    | none => (items ++ [idNew], c)
    | some other =>
      if x < srcXKey g other then (items.insertIdx c idNew, c + 1)
      else insertScan g x idNew fuel items (c + 1)

/-- Embeds `ActiveEdges::insert` (`active.rs:242-272`): ordered insertion by
source x, scanning from the current cursor position. -/
def insert (ae : ActiveEdges) (g : Geometry) (id : Nat) : ActiveEdges :=
  let x := srcXKey g id
  let (edges, cursor) :=
    insertScan g x id (ae.edges.length + 1) ae.edges ae.cursor
  ⟨edges, cursor⟩

/-- Embeds `ActiveEdges::maybe_insert`. -/
def maybe_insert (ae : ActiveEdges) (g : Geometry) (edge_id : Option Nat) :
    ActiveEdges :=
  match edge_id with
  | some id => ae.insert g id
  | none => ae

/-- Embeds `ActiveEdges::insert_edges`: incoming first, then outgoing. -/
def insert_edges (ae : ActiveEdges) (g : Geometry)
    (inc out : Option Nat) : ActiveEdges :=
  (ae.maybe_insert g inc).maybe_insert g out

/-- Embeds `ActiveEdges::retain_if` (`Vec::retain` keeps order; the cursor is
not touched). -/
def retain_if (ae : ActiveEdges) (f : Nat → Bool) : ActiveEdges :=
  { ae with edges := ae.edges.filter f }

end ActiveEdges

/-- Embeds `Rect` from `rect.rs`: two corner points (fields `_left`,
`_right`). -/
structure Rect where
  left : Point
  right : Point
deriving DecidableEq, Repr, Inhabited

/-- Embeds `Rect::new`. -/
def Rect.new (left right : Point) : Rect := ⟨left, right⟩

/-- Embeds `EdgeScans` from `edge_scans.rs`: the candidate left/right edges
and their recorded cursors. -/
structure EdgeScans where
  le : Option Edge
  re : Option Edge
  lc : Option Nat
  rc : Option Nat
deriving DecidableEq, Repr, Inhabited

/-- Embeds `EdgeScans::default()` (all four fields `None`). -/
def EdgeScans.initial : EdgeScans := ⟨none, none, none, none⟩

/-- Embeds `ScanResult` from `edge_scans.rs`. -/
inductive ScanResult where
  | ReturnRects
  | ContinueLoop (s : EdgeScans)
  | ContinueSplit (s : EdgeScans)
  | NewRect (r : Rect)
deriving DecidableEq, Repr, Inhabited

namespace EdgeScans

/-- Embeds `EdgeScans::le` (`self.le.as_ref().expect(…)`); along executed
paths a candidate is always present, so the Rust panic is embedded by the
default edge. -/
def leGet (s : EdgeScans) : Edge := s.le.getD (Inhabited.default : Edge)

/-- Embeds `EdgeScans::re`; same remark as `leGet`. -/
def reGet (s : EdgeScans) : Edge := s.re.getD (Inhabited.default : Edge)

/-- Embeds the first `while let Some(edge) = active_edges.next(geometry)`
loop of `EdgeScans::scan_for_edges`: every scanned edge is stored into
`le`; on the first edge tagged `Left` whose source y differs from the
scanline, record the post-advance cursor into `lc` and break.  The wrapper
fuel `ae.edges.length + 1` dominates the iteration count (each iteration
advances the cursor over a fixed list). -/
def scanLeftLoop (g : Geometry) (scanline : Int) :
    Nat → EdgeScans → ActiveEdges → EdgeScans × ActiveEdges
  | 0, s, ae => (s, ae)
  | fuel + 1, s, ae =>
    match ae.next g with
    | (none, ae) => (s, ae)
    | (some edge, ae) =>
      let s := { s with le := some edge }
      if edge.side = Side.Left ∧ edge.src_y g ≠ scanline then
        ({ s with lc := some ae.cursor }, ae)
      else
        scanLeftLoop g scanline fuel s ae

/-- Embeds the second loop of `EdgeScans::scan_for_edges` (candidate right
wall: tagged `Right` with target y differing from the scanline). -/
def scanRightLoop (g : Geometry) (scanline : Int) :
    Nat → EdgeScans → ActiveEdges → EdgeScans × ActiveEdges
  | 0, s, ae => (s, ae)
  | fuel + 1, s, ae =>
    match ae.next g with
    | (none, ae) => (s, ae)
    | (some edge, ae) =>
      let s := { s with re := some edge }
      if edge.side = Side.Right ∧ edge.tgt_y g ≠ scanline then
        ({ s with rc := some ae.cursor }, ae)
      else
        scanRightLoop g scanline fuel s ae

/-- Embeds `EdgeScans::scan_for_edges` (`edge_scans.rs:84-140`): left loop;
if the active edges are exhausted, `ReturnRects`; otherwise right loop and
`ContinueSplit`. -/
def scan_for_edges (s : EdgeScans) (ae : ActiveEdges) (scanline : Int)
    (g : Geometry) : ActiveEdges × ScanResult :=
  let (s, ae) := scanLeftLoop g scanline (ae.edges.length + 1) s ae
  if ae.finished then
    (ae, ScanResult.ReturnRects)
  else
    let (s, ae) := scanRightLoop g scanline (ae.edges.length + 1) s ae
    (ae, ScanResult.ContinueSplit s)

/-- Embeds `EdgeScans::check_both_splittable` (`edge_scans.rs:164-193`):
when both candidates strictly contain the scanline, advance the recorded
left cursor; if it now equals the right cursor, `ContinueLoop`; otherwise
adopt the edge at the advanced cursor (when one exists) as the new left
candidate and `ContinueSplit`. -/
def check_both_splittable (s : EdgeScans) (g : Geometry) (ae : ActiveEdges)
    (scanline : Int) : ScanResult :=
  if (s.leGet).scanline_strictly_inside g scanline
      ∧ (s.reGet).scanline_strictly_inside g scanline then
    let s := { s with lc := s.lc.map (· + 1) }
    if s.lc = s.rc then
      ScanResult.ContinueLoop s
    else
      match s.lc.bind (fun c => ae.peek_at c) with
      | some id => ScanResult.ContinueSplit { s with le := some (g.edgeVal id) }
      | none => ScanResult.ContinueSplit s
  else
    ScanResult.ContinueSplit s

/-- Embeds `EdgeScans::scan_and_split` (`edge_scans.rs:195-247`): phase 1
(`scan_for_edges`) and phase 2 (`check_both_splittable`) short-circuit via
`check_return!`; phase 3 splits whichever candidate strictly contains the
scanline via `Geometry::split_edge`, replaces that candidate by the
returned edge, and emits a rectangle from the two candidates' source
points. -/
def scan_and_split (s : EdgeScans) (g : Geometry) (ae : ActiveEdges)
    (scanline : Int) : Geometry × ActiveEdges × ScanResult :=
  match s.scan_for_edges ae scanline g with
  | (ae, ScanResult.ContinueSplit s) =>
    match s.check_both_splittable g ae scanline with
    | ScanResult.ContinueSplit s =>
      let (g, s) :=
        if (s.leGet).scanline_strictly_inside g scanline then
          let (g, new_edge) := g.split_edge (s.leGet).id scanline
          (g, { s with le := some new_edge })
        else if (s.reGet).scanline_strictly_inside g scanline then
          let (g, new_edge) := g.split_edge (s.reGet).id scanline
          (g, { s with re := some new_edge })
        else
          (g, s)
      (g, ae, ScanResult.NewRect
        (Rect.new ((s.leGet).sourceNode g).point ((s.reGet).sourceNode g).point))
    | r => (g, ae, r)
  | (ae, r) => (g, ae, r)

end EdgeScans

/-- Embeds `EdgeScanResult` from `decomposer.rs`. -/
structure EdgeScanResult where
  cursor : Nat
  edge : Edge
  side : Side
deriving DecidableEq, Repr, Inhabited

/-- Embeds `Decomposer` from `decomposer.rs`. -/
structure Decomposer where
  active_nodes : ActiveNodes
  active_edges : ActiveEdges
  scanline : Int
deriving DecidableEq, Repr, Inhabited

/-- Embeds the result of running `Decomposer::decompose`: `ok`/`err` mirror
`Result`, `panic` marks a Rust panic (`unwrap` on `None`), and `fuelOut`
marks a loop that did not finish within the wrapper fuel (only the
geometry-initialisation loop can actually diverge). -/
inductive DecompResult where
  | ok (rects : List Rect)
  | err (e : DecompErr)
  | panic
  | fuelOut
deriving DecidableEq, Repr, Inhabited

namespace Decomposer

/-- Embeds `Decomposer::new`: collect all node ids (allocation order,
`0, …, n-1`), sort them by `Point` order, start with empty active edges and
scanline `0`.  The Rust signature returns `Result` but never errs. -/
def new (g : Geometry) : Decomposer :=
  let active_nodes : ActiveNodes := ⟨List.range g.nodes.length, 0⟩
  { active_nodes := active_nodes.sort g
    active_edges := ⟨[], 0⟩
    scanline := 0 }

/-- Embeds the `while let Some(node) = active_nodes.next_if(…)` loop of
`Decomposer::add_active_edges`: consume nodes lying on the scanline and
insert each one's incoming/outgoing edges into the active edges.  Each
iteration advances the node cursor, so fuel `an.nodes.length + 1`
dominates the iteration count. -/
def addActiveEdgesLoop (g : Geometry) (scanline : Int) :
    Nat → ActiveNodes → ActiveEdges → ActiveNodes × ActiveEdges
  | 0, an, ae => (an, ae)
  | fuel + 1, an, ae =>
    match an.next_if g (fun g id =>
        let node := g.nodeVal id
        if node.y = scanline then some node else none) with
    | (none, an) => (an, ae)
    | (some node, an) =>
      addActiveEdgesLoop g scanline fuel an
        (ae.insert_edges g node.inc_edge node.out_edge)

/-- Embeds `Decomposer::add_active_edges` (`decomposer.rs:167-207`): reset
the active-edges cursor, then the consume-and-insert loop. -/
def add_active_edges (g : Geometry) (d : Decomposer) : Decomposer :=
  let ae := d.active_edges.reset_cursor
  let (an, ae) :=
    addActiveEdgesLoop g d.scanline (d.active_nodes.nodes.length + 1)
      d.active_nodes ae
  { d with active_nodes := an, active_edges := ae }

/-- Embeds the `while let Some(edge) = self.active_edges.next(geometry)`
loop of `Decomposer::scan_for_edge_on_side`: return the first edge of the
requested side whose relevant y (`src_y` for `Left`, `tgt_y` for `Right`)
differs from the scanline, together with the post-advance cursor. -/
def scanForEdgeOnSideLoop (g : Geometry) (scanline : Int) (side : Side) :
    Nat → ActiveEdges → ActiveEdges × Option EdgeScanResult
  | 0, ae => (ae, none)
  | fuel + 1, ae =>
    match ae.next g with
    | (none, ae) => (ae, none)
    | (some edge, ae) =>
      let fetch_y :=
        match side with
        | Side.Left => edge.src_y g
        | Side.Right => edge.tgt_y g
      if edge.side = side ∧ fetch_y ≠ scanline then
        (ae, some ⟨ae.cursor, edge, side⟩)
      else
        scanForEdgeOnSideLoop g scanline side fuel ae

/-- Embeds `Decomposer::scan_for_edge_on_side` (`decomposer.rs:209-237`);
fuel as in `scanForEdgeOnSideLoop`'s comment. -/
def scan_for_edge_on_side (g : Geometry) (scanline : Int) (side : Side)
    (ae : ActiveEdges) : ActiveEdges × Option EdgeScanResult :=
  scanForEdgeOnSideLoop g scanline side (ae.edges.length + 1) ae

/-- Embeds `Decomposer::split_edge` (`decomposer.rs:393-461`): identical in
structure to `Geometry::split_edge` except that the side is passed by the
caller instead of read from the stored edge, and the scanline comes from
the decomposer state. -/
def split_edge (g : Geometry) (input_edge_id : Nat) (side : Side)
    (scanline : Int) : Geometry × Edge :=
  let input_node :=
    match side with
    | Side.Left => (g.edgeVal input_edge_id).source
    | Side.Right => (g.edgeVal input_edge_id).target
  let existing_x := (g.nodeVal input_node).x
  let (g, new_node_id) :=
    g.new_node (Point.new existing_x scanline) none none
  match side with
  | Side.Left =>
    let g := g.updateEdge input_edge_id (fun e => e.set_source new_node_id)
    let g := g.updateNode input_node (fun nd => (nd.take_out_edge).snd)
    let g := g.updateNode new_node_id (fun nd => nd.set_out_edge input_edge_id)
    g.new_edge input_node new_node_id side
  | Side.Right =>
    let g := g.updateEdge input_edge_id (fun e => e.set_target new_node_id)
    let g := g.updateNode input_node (fun nd => (nd.take_in_edge).snd)
    let g := g.updateNode new_node_id (fun nd => nd.set_inc_edge input_edge_id)
    g.new_edge new_node_id input_node side

/-- Embeds the body after the pairing checks in `Decomposer::scan_edges`
(`decomposer.rs:326-383`): split the left candidate when it strictly
contains the scanline (note the draft then *assigns the returned new edge
into the original edge's arena slot*: `geometry[left.edge.id] = new_edge`),
then likewise for the right candidate, then build the rectangle from the
two candidates' source points. -/
def splitAndRect (scanline : Int) (g : Geometry)
    (left right : EdgeScanResult) : Geometry × Rect :=
  let (g, left) :=
    if left.edge.scanline_strictly_inside g scanline then
      let (g, new_edge) := split_edge g left.edge.id Side.Left scanline
      let g := g.updateEdge left.edge.id (fun _ => new_edge)
      (g, { left with edge := new_edge })
    else
      (g, left)
  let (g, right) :=
    if right.edge.scanline_strictly_inside g scanline then
      let (g, new_edge) := split_edge g right.edge.id Side.Right scanline
      let g := g.updateEdge right.edge.id (fun _ => new_edge)
      (g, { right with edge := new_edge })
    else
      (g, right)
  (g, Rect.new (left.edge.sourceNode g).point (right.edge.sourceNode g).point)

/-- Embeds the `while !self.active_edges.finished()` loop of
`Decomposer::scan_edges` (`decomposer.rs:239-386`): scan for a left
candidate (return the accumulated rectangles if none), then a right
candidate (likewise); when both strictly contain the scanline advance the
left cursor, `continue` if it hits the right cursor or no edge exists
there, otherwise adopt the edge at the advanced cursor; then split and push
a rectangle.  Each iteration strictly advances the active-edge cursor over
a list that never grows during the loop, so fuel `ae.edges.length + 1`
dominates the iteration count. -/
def scanEdgesLoop (scanline : Int) :
    Nat → Geometry → ActiveEdges → List Rect →
    Geometry × ActiveEdges × List Rect
  | 0, g, ae, rects => (g, ae, rects)
  | fuel + 1, g, ae, rects =>
    if ae.finished then
      (g, ae, rects)
    else
      match scan_for_edge_on_side g scanline Side.Left ae with
      | (ae, none) => (g, ae, rects)
      | (ae, some left) =>
        match scan_for_edge_on_side g scanline Side.Right ae with
        | (ae, none) => (g, ae, rects)
        | (ae, some right) =>
          if left.edge.scanline_strictly_inside g scanline
              ∧ right.edge.scanline_strictly_inside g scanline then
            let left := { left with cursor := left.cursor + 1 }
            if left.cursor = right.cursor then
              scanEdgesLoop scanline fuel g ae rects
            else
              match ae.peek_at left.cursor with
              | none => scanEdgesLoop scanline fuel g ae rects
              | some id =>
                let left := { left with edge := g.edgeVal id }
                let (g, rect) := splitAndRect scanline g left right
                scanEdgesLoop scanline fuel g ae (rects ++ [rect])
          else
            let (g, rect) := splitAndRect scanline g left right
            scanEdgesLoop scanline fuel g ae (rects ++ [rect])

/-- Embeds `Decomposer::scan_edges`: reset the active-edge cursor, then the
pairing loop. -/
def scan_edges (g : Geometry) (d : Decomposer) (rects : List Rect) :
    Geometry × Decomposer × List Rect :=
  let ae := d.active_edges.reset_cursor
  let (g, ae, rects) :=
    scanEdgesLoop d.scanline (ae.edges.length + 1) g ae rects
  (g, { d with active_edges := ae }, rects)

/-- Embeds `Decomposer::update_scanline` (`decomposer.rs:463-466`):
`self.scanline = self.active_nodes.scanline(geometry).unwrap()`.  The
`unwrap` panics when no current node exists; the embedding returns `none`
there. -/
def update_scanline (g : Geometry) (d : Decomposer) : Option Decomposer :=
  (d.active_nodes.scanline g).map fun sl => { d with scanline := sl }

/-- Embeds `Decomposer::purge_active_edges`: retain the active edges whose
y-interval contains the scanline; the cursor is left as-is. -/
def purge_active_edges (g : Geometry) (d : Decomposer) : Decomposer :=
  let keep : Nat → Bool := fun id => (g.edgeVal id).contains_scanline g d.scanline
  { d with active_edges := d.active_edges.retain_if keep }

/-- Embeds the main `loop` of `Decomposer::decompose`
(`decomposer.rs:529-561`): update the scanline (panic when no current
node), purge, add active edges, scan edges, and stop with the accumulated
rectangles once the active nodes are finished.  Every iteration consumes at
least one active node (the node at the cursor lies on the just-updated
scanline), so fuel `n + 1` where `n` is the node count dominates the
iteration count. -/
def decomposeLoop :
    Nat → Geometry → Decomposer → List Rect → DecompResult
  | 0, _, _, _ => DecompResult.fuelOut
  | fuel + 1, g, d, rects =>
    match update_scanline g d with
    | none => DecompResult.panic
    | some d =>
      let d := purge_active_edges g d
      let d := add_active_edges g d
      let (g, d, rects) := scan_edges g d rects
      if d.active_nodes.finished then
        DecompResult.ok rects
      else
        decomposeLoop fuel g d rects

/-- Embeds `Decomposer::decompose` (`decomposer.rs:505-563`): build the
geometry (propagating its error unchanged), build the decomposer, and run
the sweep loop. -/
def decompose (points : List Point) : DecompResult :=
  match Geometry.new points with
  | none => DecompResult.fuelOut
  | some (Except.error e) => DecompResult.err e
  | some (Except.ok g) =>
    let d := new g
    decomposeLoop (points.length + 1) g d []

end Decomposer

/-! Concrete inputs and specification-side predicates used by the claim
theorems. -/

/-- The 6-point L-shaped input of the concrete scenario:
`(0,0),(2,0),(2,2),(1,2),(1,1),(0,1)`. -/
def lshapeSpec : List Point := [⟨0, 0⟩, ⟨2, 0⟩, ⟨2, 2⟩, ⟨1, 2⟩, ⟨1, 1⟩, ⟨0, 1⟩]

/-- The same L-shape with the winding used by the repository's `main.rs`:
`(0,0),(0,1),(1,1),(1,2),(2,2),(2,0)`. -/
def lshapeMain : List Point := [⟨0, 0⟩, ⟨0, 1⟩, ⟨1, 1⟩, ⟨1, 2⟩, ⟨2, 2⟩, ⟨2, 0⟩]

/-- Four distinct points sharing one y-coordinate (a degenerate `> 3`-point
input on which the geometry-construction loop never creates an edge). -/
def collinear4 : List Point := [⟨0, 0⟩, ⟨1, 0⟩, ⟨2, 0⟩, ⟨3, 0⟩]

/-- The geometry `Geometry::new(lshapeMain)` builds (the fallback arm is
never taken: construction succeeds on this input). -/
def lshapeMainGeometry : Geometry :=
  match Geometry.new lshapeMain with
  | some (Except.ok g) => g
  | _ => Geometry.empty

/-- The decomposer state of the `lshapeMain` run at the first scanline,
right before `scan_edges`: scanline updated, purge done, active edges
inserted (the `getD` fallback is never taken: the initial active-node list
is nonempty). -/
def lshapeMainScanState : Decomposer :=
  let d0 := Decomposer.new lshapeMainGeometry
  Decomposer.add_active_edges lshapeMainGeometry
    (Decomposer.purge_active_edges lshapeMainGeometry
      ((Decomposer.update_scanline lshapeMainGeometry d0).getD d0))

/-- A 2-node geometry with one `Left` edge `(0,0) → (0,2)` strictly
containing scanline `1`; used to exercise `Geometry::split_edge`. -/
def splitDemoGeometry : Geometry :=
  ⟨[⟨0, ⟨0, 0⟩, none, some 0⟩, ⟨1, ⟨0, 2⟩, some 0, none⟩],
   [⟨0, 0, 1, Side.Left⟩]⟩

/-- A 4-node geometry with a non-strictly-containing `Left` wall
`(0,0) → (0,1)` and a strictly-containing `Right` wall `(1,2) → (1,0)`
around scanline `1`; feeding its two edges to `Decomposer::scan_edges`
triggers the right-candidate split (and the draft's arena-slot
overwrite). -/
def clobberDemoGeometry : Geometry :=
  ⟨[⟨0, ⟨0, 0⟩, none, some 0⟩, ⟨1, ⟨0, 1⟩, some 0, none⟩,
    ⟨2, ⟨1, 2⟩, none, some 1⟩, ⟨3, ⟨1, 0⟩, some 1, none⟩],
   [⟨0, 0, 1, Side.Left⟩, ⟨1, 2, 3, Side.Right⟩]⟩

/-- A 6-node geometry with three `Left` edges whose source x-coordinates
are `5`, `3` and `1` (edge ids `0`, `1`, `2` respectively); used to
exercise `ActiveEdges::insert`. -/
def unsortedDemoGeometry : Geometry :=
  ⟨[⟨0, ⟨5, 0⟩, none, some 0⟩, ⟨1, ⟨5, 1⟩, some 0, none⟩,
    ⟨2, ⟨3, 0⟩, none, some 1⟩, ⟨3, ⟨3, 1⟩, some 1, none⟩,
    ⟨4, ⟨1, 0⟩, none, some 2⟩, ⟨5, ⟨1, 1⟩, some 2, none⟩],
   [⟨0, 0, 1, Side.Left⟩, ⟨1, 2, 3, Side.Left⟩, ⟨2, 4, 5, Side.Left⟩]⟩

/-- A decomposer state whose active-node list is exhausted (no current
node exists at the cursor). -/
def exhaustedDecomposer : Decomposer := ⟨⟨[], 0⟩, ⟨[], 0⟩, 0⟩

/-- The arena-id self-consistency invariant: every stored node/edge carries
the index of its own slot in its `id` field. -/
def IdConsistent (g : Geometry) : Prop :=
  (∀ i, i < g.nodes.length → (g.nodeVal i).id = i) ∧
  (∀ i, i < g.edges.length → (g.edgeVal i).id = i)

instance (g : Geometry) : Decidable (IdConsistent g) := by
  unfold IdConsistent; infer_instance

/-- The active-edge sort invariant: the id sequence is non-decreasing in
source-node x at every index. -/
def SortedBySrcX (g : Geometry) (l : List Nat) : Prop :=
  l.Pairwise (fun a b => ActiveEdges.srcXKey g a ≤ ActiveEdges.srcXKey g b)

instance (g : Geometry) (l : List Nat) : Decidable (SortedBySrcX g l) := by
  unfold SortedBySrcX; infer_instance

/-- An active edge id qualifies as the candidate left wall when the stored
edge is tagged `Left` and its source y differs from the scanline. -/
def QualifiesAsLeft (g : Geometry) (scanline : Int) (id : Nat) : Prop :=
  (g.edgeVal id).side = Side.Left ∧ (g.edgeVal id).src_y g ≠ scanline

instance (g : Geometry) (scanline : Int) (id : Nat) :
    Decidable (QualifiesAsLeft g scanline id) := by
  unfold QualifiesAsLeft; infer_instance

/-- The number of incident edge slots a node has set. -/
def incidentSlotsSet (n : Node) : Nat :=
  (if n.inc_edge.isSome then 1 else 0) + (if n.out_edge.isSome then 1 else 0)

/-- The node whose endpoint `Geometry::split_edge` replaces: the source of
a `Left` edge, the target of a `Right` edge. -/
def Geometry.splitReplacedNode (g : Geometry) (eid : Nat) : Nat :=
  match (g.edgeVal eid).side with
  | Side.Left => (g.edgeVal eid).source
  | Side.Right => (g.edgeVal eid).target

/-- A decomposer state holding `clobberDemoGeometry`'s two edges as active
edges at scanline `1`. -/
def clobberDemoState : Decomposer := ⟨⟨[], 0⟩, ⟨[0, 1], 0⟩, 1⟩

/-- Position `i` starts a vertical boundary segment: the `i`-th point and
its cyclic successor differ in y (these are exactly the consecutive pairs
for which `initialize_nodes_and_edges` creates an edge). -/
abbrev cyclicYDiffers (points : List Point) (i : Nat) : Prop :=
  (points.getD i default).y ≠
    (points.getD ((i + 1) % points.length) default).y

/-- Reference ordered insertion (insert before the first element whose
source x is strictly greater); `ActiveEdges.insertScan` agrees with it when
the scan starts at cursor `0`. -/
def oins (g : Geometry) (x : Int) (idNew : Nat) : List Nat → List Nat
  | [] => [idNew]
  | a :: rest =>
    if x < ActiveEdges.srcXKey g a then idNew :: a :: rest
    else a :: oins g x idNew rest

/-! Helper lemmas about the embedded operations. -/

section Helpers

variable {g : Geometry}

theorem nodes_updateEdge (i : Nat) (f : Edge → Edge) :
    (g.updateEdge i f).nodes = g.nodes := rfl

theorem edges_updateNode (i : Nat) (f : Node → Node) :
    (g.updateNode i f).edges = g.edges := rfl

theorem length_nodes_updateNode (i : Nat) (f : Node → Node) :
    (g.updateNode i f).nodes.length = g.nodes.length :=
  List.length_set g.nodes i _

theorem length_edges_updateEdge (i : Nat) (f : Edge → Edge) :
    (g.updateEdge i f).edges.length = g.edges.length :=
  List.length_set g.edges i _

theorem nodeVal_updateNode_self (i : Nat) (f : Node → Node)
    (h : i < g.nodes.length) :
    (g.updateNode i f).nodeVal i = f (g.nodeVal i) := by
  simp [Geometry.updateNode, Geometry.nodeVal,
    List.getD_eq_getElem?_getD, List.getElem?_set_self, h]

theorem nodeVal_updateNode_ne {i j : Nat} (f : Node → Node) (h : i ≠ j) :
    (g.updateNode i f).nodeVal j = g.nodeVal j := by
  simp [Geometry.updateNode, Geometry.nodeVal,
    List.getD_eq_getElem?_getD, List.getElem?_set_ne, h]

theorem edgeVal_updateEdge_self (i : Nat) (f : Edge → Edge)
    (h : i < g.edges.length) :
    (g.updateEdge i f).edgeVal i = f (g.edgeVal i) := by
  simp [Geometry.updateEdge, Geometry.edgeVal,
    List.getD_eq_getElem?_getD, List.getElem?_set_self, h]

theorem edgeVal_updateEdge_ne {i j : Nat} (f : Edge → Edge) (h : i ≠ j) :
    (g.updateEdge i f).edgeVal j = g.edgeVal j := by
  simp [Geometry.updateEdge, Geometry.edgeVal,
    List.getD_eq_getElem?_getD, List.getElem?_set_ne, h]

theorem nodeVal_updateEdge (i : Nat) (f : Edge → Edge) (j : Nat) :
    (g.updateEdge i f).nodeVal j = g.nodeVal j := rfl

theorem edgeVal_updateNode (i : Nat) (f : Node → Node) (j : Nat) :
    (g.updateNode i f).edgeVal j = g.edgeVal j := rfl

theorem new_node_fst_nodes (p : Point) (io oo : Option Nat) :
    (g.new_node p io oo).fst.nodes =
      g.nodes ++ [Node.new p g.nodes.length io oo] := rfl

theorem new_node_snd (p : Point) (io oo : Option Nat) :
    (g.new_node p io oo).snd = g.nodes.length := rfl

theorem new_node_fst_edges (p : Point) (io oo : Option Nat) :
    (g.new_node p io oo).fst.edges = g.edges := rfl

theorem nodeVal_new_node_self (p : Point) (io oo : Option Nat) :
    (g.new_node p io oo).fst.nodeVal g.nodes.length =
      Node.new p g.nodes.length io oo := by
  simp [Geometry.new_node, Geometry.nodeVal, List.getD_eq_getElem?_getD]

theorem nodeVal_new_node_lt (p : Point) (io oo : Option Nat) {j : Nat}
    (h : j < g.nodes.length) :
    (g.new_node p io oo).fst.nodeVal j = g.nodeVal j := by
  simp only [Geometry.new_node, Geometry.nodeVal]
  exact List.getD_append _ _ _ _ h

theorem new_edge_fst_edges (s t : Nat) (ty : Side) :
    (g.new_edge s t ty).fst.edges =
      g.edges ++ [⟨g.edges.length, s, t, ty⟩] := rfl

theorem new_edge_snd (s t : Nat) (ty : Side) :
    (g.new_edge s t ty).snd = ⟨g.edges.length, s, t, ty⟩ := rfl

theorem new_edge_fst_nodes_length (s t : Nat) (ty : Side) :
    (g.new_edge s t ty).fst.nodes.length = g.nodes.length := by
  simp [Geometry.new_edge, length_nodes_updateNode]

theorem updateNode_oob (i : Nat) (f : Node → Node)
    (h : g.nodes.length ≤ i) : g.updateNode i f = g := by
  unfold Geometry.updateNode
  rw [List.set_eq_of_length_le h]

theorem nodeVal_field_updateNode {α : Type} (i j : Nat) (f : Node → Node)
    (F : Node → α) (hf : ∀ n, F (f n) = F n) :
    F ((g.updateNode i f).nodeVal j) = F (g.nodeVal j) := by
  by_cases hij : i = j
  · subst hij
    by_cases hi : i < g.nodes.length
    · rw [nodeVal_updateNode_self i f hi, hf]
    · rw [updateNode_oob i f (by omega)]
  · rw [nodeVal_updateNode_ne f hij]

theorem out_edge_after_sets (k : Geometry) (s t eid j : Nat) :
    (((k.updateNode s (fun n => n.set_out_edge eid)).updateNode t
        (fun n => n.set_inc_edge eid)).nodeVal j).out_edge =
      if j = s ∧ s < k.nodes.length then some eid
      else (k.nodeVal j).out_edge := by
  rw [nodeVal_field_updateNode t j
    (fun n => n.set_inc_edge eid) Node.out_edge (fun n => rfl)]
  by_cases hjs : j = s
  · subst hjs
    by_cases hj : j < k.nodes.length
    · rw [nodeVal_updateNode_self j (fun n => n.set_out_edge eid) hj]
      simp [Node.set_out_edge, hj]
    · rw [updateNode_oob j (fun n => n.set_out_edge eid) (by omega)]
      simp [hj]
  · rw [nodeVal_updateNode_ne (fun n => n.set_out_edge eid)
      (fun hc => hjs hc.symm)]
    simp [hjs]

theorem inc_edge_after_sets (k : Geometry) (s t eid j : Nat) :
    (((k.updateNode s (fun n => n.set_out_edge eid)).updateNode t
        (fun n => n.set_inc_edge eid)).nodeVal j).inc_edge =
      if j = t ∧ t < k.nodes.length then some eid
      else (k.nodeVal j).inc_edge := by
  by_cases hjt : j = t
  · subst hjt
    by_cases hj : j < k.nodes.length
    · rw [nodeVal_updateNode_self j (fun n => n.set_inc_edge eid)
        (by rw [length_nodes_updateNode]; exact hj)]
      simp [Node.set_inc_edge, hj]
    · rw [updateNode_oob j (fun n => n.set_inc_edge eid)
        (by rw [length_nodes_updateNode]; omega)]
      rw [nodeVal_field_updateNode s j
        (fun n => n.set_out_edge eid) Node.inc_edge (fun n => rfl)]
      simp [hj]
  · rw [nodeVal_updateNode_ne (fun n => n.set_inc_edge eid)
      (fun hc => hjt hc.symm)]
    rw [nodeVal_field_updateNode s j
      (fun n => n.set_out_edge eid) Node.inc_edge (fun n => rfl)]
    simp [hjt]

theorem point_after_sets (k : Geometry) (s t eid j : Nat) :
    (((k.updateNode s (fun n => n.set_out_edge eid)).updateNode t
        (fun n => n.set_inc_edge eid)).nodeVal j).point =
      (k.nodeVal j).point := by
  rw [nodeVal_field_updateNode t j
    (fun n => n.set_inc_edge eid) Node.point (fun n => rfl)]
  rw [nodeVal_field_updateNode s j
    (fun n => n.set_out_edge eid) Node.point (fun n => rfl)]

theorem id_after_sets (k : Geometry) (s t eid j : Nat) :
    (((k.updateNode s (fun n => n.set_out_edge eid)).updateNode t
        (fun n => n.set_inc_edge eid)).nodeVal j).id =
      (k.nodeVal j).id := by
  rw [nodeVal_field_updateNode t j
    (fun n => n.set_inc_edge eid) Node.id (fun n => rfl)]
  rw [nodeVal_field_updateNode s j
    (fun n => n.set_out_edge eid) Node.id (fun n => rfl)]

theorem out_edge_nodeVal_new_edge (s t : Nat) (ty : Side) (j : Nat) :
    ((g.new_edge s t ty).fst.nodeVal j).out_edge =
      if j = s ∧ s < g.nodes.length then some g.edges.length
      else (g.nodeVal j).out_edge :=
  out_edge_after_sets ⟨g.nodes, g.edges ++ [⟨g.edges.length, s, t, ty⟩]⟩
    s t g.edges.length j

theorem inc_edge_nodeVal_new_edge (s t : Nat) (ty : Side) (j : Nat) :
    ((g.new_edge s t ty).fst.nodeVal j).inc_edge =
      if j = t ∧ t < g.nodes.length then some g.edges.length
      else (g.nodeVal j).inc_edge :=
  inc_edge_after_sets ⟨g.nodes, g.edges ++ [⟨g.edges.length, s, t, ty⟩]⟩
    s t g.edges.length j

theorem point_nodeVal_new_edge (s t : Nat) (ty : Side) (j : Nat) :
    ((g.new_edge s t ty).fst.nodeVal j).point = (g.nodeVal j).point :=
  point_after_sets ⟨g.nodes, g.edges ++ [⟨g.edges.length, s, t, ty⟩]⟩
    s t g.edges.length j

theorem id_nodeVal_new_edge (s t : Nat) (ty : Side) (j : Nat) :
    ((g.new_edge s t ty).fst.nodeVal j).id = (g.nodeVal j).id :=
  id_after_sets ⟨g.nodes, g.edges ++ [⟨g.edges.length, s, t, ty⟩]⟩
    s t g.edges.length j

end Helpers

section InitHelpers

theorem initialize_nodes_nil (g : Geometry) : g.initialize_nodes [] = g := rfl

theorem initialize_nodes_cons (g : Geometry) (p : Point) (ps : List Point) :
    g.initialize_nodes (p :: ps) =
      ((g.new_node p none none).fst).initialize_nodes ps := rfl

theorem initialize_nodes_edges (ps : List Point) :
    ∀ g : Geometry, (g.initialize_nodes ps).edges = g.edges := by
  induction ps with
  | nil => intro g; rfl
  | cons p ps ih =>
    intro g
    rw [initialize_nodes_cons, ih, new_node_fst_edges]

theorem initialize_nodes_length (ps : List Point) :
    ∀ g : Geometry,
      (g.initialize_nodes ps).nodes.length = g.nodes.length + ps.length := by
  induction ps with
  | nil => intro g; rfl
  | cons p ps ih =>
    intro g
    rw [initialize_nodes_cons, ih, new_node_fst_nodes]
    simp
    omega

theorem initialize_nodes_nodeVal (ps : List Point) :
    ∀ (g : Geometry) (j : Nat),
      (g.initialize_nodes ps).nodeVal j =
        if j < g.nodes.length then g.nodeVal j
        else if j < g.nodes.length + ps.length then
          Node.new (ps.getD (j - g.nodes.length) default) j none none
        else default := by
  induction ps with
  | nil =>
    intro g j
    rw [initialize_nodes_nil]
    by_cases hj : j < g.nodes.length
    · rw [if_pos hj]
    · rw [if_neg hj, if_neg (by simpa using hj)]
      exact List.getD_eq_default _ _ (by omega)
  | cons p ps ih =>
    intro g j
    rw [initialize_nodes_cons, ih]
    have hlen : (g.new_node p none none).fst.nodes.length =
        g.nodes.length + 1 := by
      rw [new_node_fst_nodes]; simp
    rw [hlen]
    by_cases hj1 : j < g.nodes.length
    · rw [if_pos (by omega), if_pos hj1, nodeVal_new_node_lt _ _ _ hj1]
    · by_cases hj2 : j = g.nodes.length
      · subst hj2
        rw [if_pos (by omega), if_neg hj1,
          if_pos (by simp only [List.length_cons]; omega), nodeVal_new_node_self]
        simp
      · have hj3 : g.nodes.length < j := by omega
        rw [if_neg (by omega), if_neg hj1]
        by_cases hj4 : j < g.nodes.length + 1 + ps.length
        · rw [if_pos hj4, if_pos (by simp; omega)]
          have harith : j - g.nodes.length = (j - (g.nodes.length + 1)) + 1 :=
            by omega
          rw [harith]
          rfl
        · rw [if_neg hj4, if_neg (by simp; omega)]

theorem init_nodes_out_edge (points : List Point) (j : Nat) :
    (((Geometry.empty.initialize_nodes points).nodeVal j)).out_edge = none := by
  rw [initialize_nodes_nodeVal]
  split_ifs with h1 h2
  · cases j <;> rfl
  · rfl
  · rfl

theorem init_nodes_point (points : List Point) (j : Nat)
    (h : j < points.length) :
    (((Geometry.empty.initialize_nodes points).nodeVal j)).point =
      points.getD j default := by
  rw [initialize_nodes_nodeVal]
  rw [if_neg (by simp [Geometry.empty]), if_pos (by simp [Geometry.empty]; omega)]
  rfl

theorem which_side_eq_none_iff (p q : Point) :
    p.which_side q = none ↔ p.y = q.y := by
  unfold Point.which_side
  by_cases h1 : p.y < q.y
  · simp [h1]
    omega
  · by_cases h2 : p.y = q.y
    · simp [h1, h2]
    · simp [h1, h2]

theorem which_side_isSome_of_ne (p q : Point) (h : p.y ≠ q.y) :
    ∃ side, p.which_side q = some side := by
  unfold Point.which_side
  by_cases h1 : p.y < q.y
  · exact ⟨Side.Left, by rw [if_pos h1]⟩
  · exact ⟨Side.Right, by rw [if_neg h1, if_neg h]⟩

theorem initEdgesLoop_break (fuel n : Nat) (g : Geometry) (s t : Nat)
    (h : ((g.nodeVal s).out_edge).isSome = true) :
    Geometry.initEdgesLoop (fuel + 1) n g s t = some g := by
  simp [Geometry.initEdgesLoop, h]

theorem initEdgesLoop_step_none (fuel n : Nat) (g : Geometry) (s t : Nat)
    (h1 : (g.nodeVal s).out_edge = none)
    (h2 : (g.nodeVal s).which_side (g.nodeVal t) = none) :
    Geometry.initEdgesLoop (fuel + 1) n g s t =
      Geometry.initEdgesLoop fuel n g t ((t + 1) % n) := by
  simp [Geometry.initEdgesLoop, h1, h2]

theorem initEdgesLoop_step_some (fuel n : Nat) (g : Geometry) (s t : Nat)
    (side : Side) (h1 : (g.nodeVal s).out_edge = none)
    (h2 : (g.nodeVal s).which_side (g.nodeVal t) = some side) :
    Geometry.initEdgesLoop (fuel + 1) n g s t =
      Geometry.initEdgesLoop fuel n ((g.new_edge s t side).fst) t
        ((t + 1) % n) := by
  simp [Geometry.initEdgesLoop, h1, h2]

theorem initEdgesLoop_mono (n : Nat) :
    ∀ (f f' : Nat) (g : Geometry) (s t : Nat) (gr : Geometry), f ≤ f' →
      Geometry.initEdgesLoop f n g s t = some gr →
      Geometry.initEdgesLoop f' n g s t = some gr := by
  intro f
  induction f with
  | zero =>
    intro f' g s t gr _ h
    simp [Geometry.initEdgesLoop] at h
  | succ f ih =>
    intro f' g s t gr hle h
    obtain ⟨f'', rfl⟩ : ∃ f'', f' = f'' + 1 :=
      ⟨f' - 1, by omega⟩
    by_cases hout : ((g.nodeVal s).out_edge).isSome = true
    · rw [initEdgesLoop_break f n g s t hout] at h
      rw [initEdgesLoop_break f'' n g s t hout]
      exact h
    · have hnone : (g.nodeVal s).out_edge = none :=
        Option.not_isSome_iff_eq_none.mp hout
      cases hws : (g.nodeVal s).which_side (g.nodeVal t) with
      | none =>
        rw [initEdgesLoop_step_none f n g s t hnone hws] at h
        rw [initEdgesLoop_step_none f'' n g s t hnone hws]
        exact ih f'' _ _ _ _ (by omega) h
      | some side =>
        rw [initEdgesLoop_step_some f n g s t side hnone hws] at h
        rw [initEdgesLoop_step_some f'' n g s t side hnone hws]
        exact ih f'' _ _ _ _ (by omega) h

theorem new_edge_fst_edges_length {g : Geometry} (s t : Nat) (ty : Side) :
    (g.new_edge s t ty).fst.edges.length = g.edges.length + 1 := by
  rw [new_edge_fst_edges]
  simp

theorem initLoop_quiet (points : List Point) (hn : 3 < points.length) :
    ∀ k : Nat, k ≤ points.length →
      (∀ j, j < k → ¬ cyclicYDiffers points j) → ∀ f : Nat,
      Geometry.initEdgesLoop (f + k) points.length
          (Geometry.empty.initialize_nodes points) 0 1 =
      Geometry.initEdgesLoop f points.length
          (Geometry.empty.initialize_nodes points) (k % points.length)
          ((k + 1) % points.length) := by
  intro k
  induction k with
  | zero =>
    intro _ _ f
    rw [Nat.zero_mod, Nat.mod_eq_of_lt (by omega)]
    rfl
  | succ k ih =>
    intro hk hquiet f
    have hstep : f + (k + 1) = (f + 1) + k := by omega
    rw [hstep, ih (by omega) (fun j hj => hquiet j (by omega)) (f + 1)]
    have hkn : k < points.length := by omega
    rw [Nat.mod_eq_of_lt hkn]
    have hout : ((Geometry.empty.initialize_nodes points).nodeVal k).out_edge
        = none := init_nodes_out_edge points k
    have hws : ((Geometry.empty.initialize_nodes points).nodeVal k).which_side
        ((Geometry.empty.initialize_nodes points).nodeVal
          ((k + 1) % points.length)) = none := by
      unfold Node.which_side
      rw [init_nodes_point points k hkn,
        init_nodes_point points ((k + 1) % points.length)
          (Nat.mod_lt _ (by omega))]
      rw [which_side_eq_none_iff]
      have := hquiet k (by omega)
      unfold cyclicYDiffers at this
      omega
    rw [initEdgesLoop_step_none f points.length _ k ((k + 1) % points.length)
      hout hws]
    rw [Nat.mod_add_mod]

theorem initLoop_succ (n : Nat) (hn : 0 < n) :
    ∀ (d : Nat) (g : Geometry) (s : Nat), g.nodes.length = n → s < n →
      (((g.nodeVal ((s + d) % n)).out_edge).isSome = true) →
      ∃ gr, Geometry.initEdgesLoop (d + 1) n g s ((s + 1) % n) = some gr := by
  intro d
  induction d with
  | zero =>
    intro g s hlen hs hflag
    rw [Nat.add_zero, Nat.mod_eq_of_lt hs] at hflag
    exact ⟨g, initEdgesLoop_break 0 n g s _ hflag⟩
  | succ d ih =>
    intro g s hlen hs hflag
    by_cases hout : ((g.nodeVal s).out_edge).isSome = true
    · exact ⟨g, initEdgesLoop_break (d + 1) n g s _ hout⟩
    · have hnone : (g.nodeVal s).out_edge = none :=
        Option.not_isSome_iff_eq_none.mp (by simpa using hout)
      have hs1 : (s + 1) % n < n := Nat.mod_lt _ (by omega)
      have hidx : (((s + 1) % n) + d) % n = (s + (d + 1)) % n := by
        rw [Nat.mod_add_mod]
        ring_nf
      cases hws : (g.nodeVal s).which_side
          (g.nodeVal ((s + 1) % n)) with
      | none =>
        rw [initEdgesLoop_step_none (d + 1) n g s _ hnone hws]
        exact ih g ((s + 1) % n) hlen hs1 (by rw [hidx]; exact hflag)
      | some side =>
        rw [initEdgesLoop_step_some (d + 1) n g s _ side hnone hws]
        refine ih ((g.new_edge s ((s + 1) % n) side).fst) ((s + 1) % n)
          (by rw [new_edge_fst_nodes_length]; exact hlen) hs1 ?_
        rw [out_edge_nodeVal_new_edge]
        by_cases hcase : (((s + 1) % n) + d) % n = s ∧ s < g.nodes.length
        · rw [if_pos hcase]
          rfl
        · rw [if_neg hcase, hidx]
          exact hflag

theorem initLoop_allsame_none (points : List Point) (hn : 3 < points.length)
    (hsame : ∀ i, i < points.length → ¬ cyclicYDiffers points i) :
    ∀ (fuel s : Nat), s < points.length →
      Geometry.initEdgesLoop fuel points.length
        (Geometry.empty.initialize_nodes points) s
        ((s + 1) % points.length) = none := by
  intro fuel
  induction fuel with
  | zero =>
    intro s _
    rfl
  | succ fuel ih =>
    intro s hs
    have hout : ((Geometry.empty.initialize_nodes points).nodeVal s).out_edge
        = none := init_nodes_out_edge points s
    have hs1 : (s + 1) % points.length < points.length :=
      Nat.mod_lt _ (by omega)
    have hws : ((Geometry.empty.initialize_nodes points).nodeVal s).which_side
        ((Geometry.empty.initialize_nodes points).nodeVal
          ((s + 1) % points.length)) = none := by
      unfold Node.which_side
      rw [init_nodes_point points s hs, init_nodes_point points _ hs1,
        which_side_eq_none_iff]
      have := hsame s hs
      unfold cyclicYDiffers at this
      omega
    rw [initEdgesLoop_step_none fuel points.length _ s _ hout hws]
    exact ih ((s + 1) % points.length) hs1

end InitHelpers

section InsertHelpers

theorem insertIdx_eq_take_cons_drop {α : Type} (a : α) :
    ∀ (l : List α) (c : Nat), c ≤ l.length →
      l.insertIdx c a = l.take c ++ a :: l.drop c := by
  intro l
  induction l with
  | nil =>
    intro c hc
    have hc0 : c = 0 := by simpa using hc
    subst hc0
    rfl
  | cons b t ih =>
    intro c hc
    cases c with
    | zero => rfl
    | succ c =>
      rw [List.insertIdx_succ_cons, ih c (by simpa using hc)]
      rfl

theorem insertScan_eq_oins (g : Geometry) (x : Int) (idNew : Nat) :
    ∀ (fuel : Nat) (items : List Nat) (c : Nat), c ≤ items.length →
      items.length < fuel + c →
      (ActiveEdges.insertScan g x idNew fuel items c).fst =
        items.take c ++ oins g x idNew (items.drop c) := by
  intro fuel
  induction fuel with
  | zero =>
    intro items c hc hlt
    omega
  | succ fuel ih =>
    intro items c hc hlt
    cases hg : items.get? c with
    | none =>
      have hlen : items.length ≤ c := List.get?_eq_none.mp hg
      have hce : c = items.length := by omega
      subst hce
      simp only [ActiveEdges.insertScan, hg]
      rw [List.take_length, List.drop_length]
      rfl
    | some a =>
      have hclen : c < items.length := by
        by_contra hcon
        rw [List.get?_eq_none.mpr (by omega)] at hg
        cases hg
      have helem : items[c] = a := by
        rw [List.get?_eq_getElem?, List.getElem?_eq_getElem hclen] at hg
        simpa using hg
      have hdrop : items.drop c = a :: items.drop (c + 1) := by
        rw [List.drop_eq_getElem_cons hclen, helem]
      by_cases hkey : x < ActiveEdges.srcXKey g a
      · simp only [ActiveEdges.insertScan, hg, if_pos hkey]
        rw [insertIdx_eq_take_cons_drop idNew items c (by omega), hdrop]
        rw [oins, if_pos hkey]
      · simp only [ActiveEdges.insertScan, hg, if_neg hkey]
        rw [ih items (c + 1) (by omega) (by omega), hdrop, oins, if_neg hkey]
        have htake : items.take (c + 1) = items.take c ++ [a] := by
          rw [← List.take_concat_get' items c hclen, helem]
        rw [htake]
        simp

theorem mem_oins (g : Geometry) (x : Int) (idNew : Nat) :
    ∀ (l : List Nat) (b : Nat), b ∈ oins g x idNew l → b = idNew ∨ b ∈ l := by
  intro l
  induction l with
  | nil =>
    intro b hb
    simp [oins] at hb
    exact Or.inl hb
  | cons a rest ih =>
    intro b hb
    rw [oins] at hb
    by_cases hkey : x < ActiveEdges.srcXKey g a
    · rw [if_pos hkey] at hb
      simp at hb
      rcases hb with h | h | h
      · exact Or.inl h
      · exact Or.inr (by simp [h])
      · exact Or.inr (by simp [h])
    · rw [if_neg hkey] at hb
      simp at hb
      rcases hb with h | h
      · exact Or.inr (by simp [h])
      · rcases ih b h with h' | h'
        · exact Or.inl h'
        · exact Or.inr (by simp [h'])

theorem oins_sorted (g : Geometry) (idNew : Nat) :
    ∀ l : List Nat, SortedBySrcX g l →
      SortedBySrcX g (oins g (ActiveEdges.srcXKey g idNew) idNew l) := by
  intro l
  induction l with
  | nil =>
    intro _
    simp [oins, SortedBySrcX]
  | cons a rest ih =>
    intro hl
    rw [SortedBySrcX, List.pairwise_cons] at hl
    obtain ⟨ha, hrest⟩ := hl
    rw [oins]
    by_cases hkey : ActiveEdges.srcXKey g idNew < ActiveEdges.srcXKey g a
    · rw [if_pos hkey]
      rw [SortedBySrcX, List.pairwise_cons]
      refine ⟨?_, ?_⟩
      · intro b hb
        rcases List.mem_cons.mp hb with h | h
        · subst h
          omega
        · have := ha b h
          omega
      · rw [List.pairwise_cons]
        exact ⟨ha, hrest⟩
    · rw [if_neg hkey]
      rw [SortedBySrcX, List.pairwise_cons]
      refine ⟨?_, ih hrest⟩
      intro b hb
      rcases mem_oins g _ idNew rest b hb with h | h
      · subst h
        omega
      · exact ha b h

end InsertHelpers

section SplitHelpers

theorem split_edge_left_eq (g : Geometry) (eid : Nat) (sl : Int)
    (hside : (g.edgeVal eid).side = Side.Left) :
    g.split_edge eid sl =
      ((((⟨g.nodes ++
            [Node.new (Point.new (g.nodeVal (g.edgeVal eid).source).x sl)
              g.nodes.length none none],
          g.edges⟩ : Geometry).updateEdge eid
            (fun e => e.set_source g.nodes.length)).updateNode
          (g.edgeVal eid).source
          (fun nd => (nd.take_out_edge).snd)).updateNode g.nodes.length
          (fun nd => nd.set_out_edge eid)).new_edge
        (g.edgeVal eid).source g.nodes.length Side.Left := by
  simp only [Geometry.split_edge, Geometry.new_node, hside]

theorem split_edge_right_eq (g : Geometry) (eid : Nat) (sl : Int)
    (hside : (g.edgeVal eid).side = Side.Right) :
    g.split_edge eid sl =
      ((((⟨g.nodes ++
            [Node.new (Point.new (g.nodeVal (g.edgeVal eid).target).x sl)
              g.nodes.length none none],
          g.edges⟩ : Geometry).updateEdge eid
            (fun e => e.set_target g.nodes.length)).updateNode
          (g.edgeVal eid).target
          (fun nd => (nd.take_in_edge).snd)).updateNode g.nodes.length
          (fun nd => nd.set_inc_edge eid)).new_edge
        g.nodes.length (g.edgeVal eid).target Side.Right := by
  simp only [Geometry.split_edge, Geometry.new_node, hside]

theorem edges_of_stacked_updates (k : Geometry) (eid u v : Nat)
    (f1 : Edge → Edge) (f2 f3 : Node → Node) :
    (((k.updateEdge eid f1).updateNode u f2).updateNode v f3).edges =
      k.edges.set eid (f1 (k.edgeVal eid)) := rfl

theorem nodeVal_new_edge_untouched {g : Geometry} (s t : Nat) (ty : Side)
    {j : Nat} (hs : j ≠ s) (ht : j ≠ t) :
    (g.new_edge s t ty).fst.nodeVal j = g.nodeVal j := by
  unfold Geometry.new_edge
  rw [nodeVal_updateNode_ne _ (fun hc => ht hc.symm),
    nodeVal_updateNode_ne _ (fun hc => hs hc.symm)]
  rfl

theorem nodeVal_append_self (nodes : List Node) (E : List Edge) (nd : Node) :
    (⟨nodes ++ [nd], E⟩ : Geometry).nodeVal nodes.length = nd := by
  simp [Geometry.nodeVal, List.getD_eq_getElem?_getD]

theorem nodeVal_append_lt (nodes : List Node) (E : List Edge) (nd : Node)
    {j : Nat} (h : j < nodes.length) :
    (⟨nodes ++ [nd], E⟩ : Geometry).nodeVal j =
      (⟨nodes, E⟩ : Geometry).nodeVal j :=
  List.getD_append _ _ _ _ h

theorem edgeVal_new_edge (g : Geometry) (s t : Nat) (ty : Side) (i : Nat) :
    (g.new_edge s t ty).fst.edgeVal i =
      (g.edges ++ [(⟨g.edges.length, s, t, ty⟩ : Edge)]).getD i default := rfl

theorem getD_set_self {α : Type} (l : List α) (i : Nat) (v d : α)
    (h : i < l.length) : (l.set i v).getD i d = v := by
  simp [List.getD_eq_getElem?_getD, List.getElem?_set_self, h]

theorem getD_set_ne {α : Type} (l : List α) {i j : Nat} (v d : α)
    (h : i ≠ j) : (l.set i v).getD j d = l.getD j d := by
  simp [List.getD_eq_getElem?_getD, List.getElem?_set_ne, h]

theorem getD_append_self {α : Type} (l : List α) (v d : α) :
    (l ++ [v]).getD l.length d = v := by
  simp [List.getD_eq_getElem?_getD]

theorem split_like_new_edge_props (K : Geometry) (s t : Nat) (ty : Side)
    (elen : Nat) (hK : K.edges.length = elen) :
    (K.new_edge s t ty).snd.id = elen ∧
    (K.new_edge s t ty).snd = (K.new_edge s t ty).fst.edgeVal elen := by
  subst hK
  refine ⟨rfl, ?_⟩
  rw [new_edge_snd, edgeVal_new_edge, getD_append_self]

theorem edgeVal_new_edge_lt (K : Geometry) (s t : Nat) (ty : Side)
    (i elen : Nat) (hK : K.edges.length = elen) (h : i < elen) :
    (K.new_edge s t ty).fst.edgeVal i = K.edgeVal i := by
  subst hK
  rw [edgeVal_new_edge]
  exact List.getD_append _ _ _ _ h

theorem split_edge_snd_id (g : Geometry) (eid : Nat) (sl : Int) :
    (g.split_edge eid sl).snd.id = g.edges.length := by
  cases hside : (g.edgeVal eid).side with
  | Left =>
    rw [split_edge_left_eq g eid sl hside]
    exact (split_like_new_edge_props _ _ _ _ _
      (List.length_set g.edges eid _)).1
  | Right =>
    rw [split_edge_right_eq g eid sl hside]
    exact (split_like_new_edge_props _ _ _ _ _
      (List.length_set g.edges eid _)).1

theorem split_edge_snd_is_fresh_stored (g : Geometry) (eid : Nat)
    (sl : Int) :
    (g.split_edge eid sl).snd =
      ((g.split_edge eid sl).fst).edgeVal g.edges.length := by
  cases hside : (g.edgeVal eid).side with
  | Left =>
    rw [split_edge_left_eq g eid sl hside]
    exact (split_like_new_edge_props _ _ _ _ _
      (List.length_set g.edges eid _)).2
  | Right =>
    rw [split_edge_right_eq g eid sl hside]
    exact (split_like_new_edge_props _ _ _ _ _
      (List.length_set g.edges eid _)).2

theorem split_edge_left_snd (g : Geometry) (eid : Nat) (sl : Int)
    (hside : (g.edgeVal eid).side = Side.Left) :
    (g.split_edge eid sl).snd =
      ⟨g.edges.length, (g.edgeVal eid).source, g.nodes.length,
        Side.Left⟩ := by
  rw [split_edge_left_eq g eid sl hside, new_edge_snd]
  congr 1
  exact List.length_set g.edges eid _

theorem split_edge_right_snd (g : Geometry) (eid : Nat) (sl : Int)
    (hside : (g.edgeVal eid).side = Side.Right) :
    (g.split_edge eid sl).snd =
      ⟨g.edges.length, g.nodes.length, (g.edgeVal eid).target,
        Side.Right⟩ := by
  rw [split_edge_right_eq g eid sl hside, new_edge_snd]
  congr 1
  exact List.length_set g.edges eid _

theorem split_edge_left_stored (g : Geometry) (eid : Nat) (sl : Int)
    (hside : (g.edgeVal eid).side = Side.Left)
    (he : eid < g.edges.length) :
    ((g.split_edge eid sl).fst).edgeVal eid =
      (g.edgeVal eid).set_source g.nodes.length := by
  rw [split_edge_left_eq g eid sl hside,
    edgeVal_new_edge_lt _ _ _ _ eid g.edges.length
      (List.length_set g.edges eid _) he]
  exact getD_set_self g.edges eid _ _ he

theorem split_edge_right_stored (g : Geometry) (eid : Nat) (sl : Int)
    (hside : (g.edgeVal eid).side = Side.Right)
    (he : eid < g.edges.length) :
    ((g.split_edge eid sl).fst).edgeVal eid =
      (g.edgeVal eid).set_target g.nodes.length := by
  rw [split_edge_right_eq g eid sl hside,
    edgeVal_new_edge_lt _ _ _ _ eid g.edges.length
      (List.length_set g.edges eid _) he]
  exact getD_set_self g.edges eid _ _ he

theorem split_edge_nodes_length (g : Geometry) (eid : Nat) (sl : Int) :
    (g.split_edge eid sl).fst.nodes.length = g.nodes.length + 1 := by
  cases hside : (g.edgeVal eid).side with
  | Left =>
    rw [split_edge_left_eq g eid sl hside, new_edge_fst_nodes_length]
    simp [Geometry.updateNode, Geometry.updateEdge]
  | Right =>
    rw [split_edge_right_eq g eid sl hside, new_edge_fst_nodes_length]
    simp [Geometry.updateNode, Geometry.updateEdge]

theorem split_edge_edges_length (g : Geometry) (eid : Nat) (sl : Int) :
    (g.split_edge eid sl).fst.edges.length = g.edges.length + 1 := by
  cases hside : (g.edgeVal eid).side with
  | Left =>
    rw [split_edge_left_eq g eid sl hside, new_edge_fst_edges]
    simp [Geometry.updateNode, Geometry.updateEdge]
  | Right =>
    rw [split_edge_right_eq g eid sl hside, new_edge_fst_edges]
    simp [Geometry.updateNode, Geometry.updateEdge]

theorem split_left_new_node_out (g : Geometry) (eid : Nat) (sl : Int)
    (hside : (g.edgeVal eid).side = Side.Left)
    (hsrc : (g.edgeVal eid).source < g.nodes.length) :
    (((g.split_edge eid sl).fst).nodeVal g.nodes.length).out_edge =
      some eid := by
  rw [split_edge_left_eq g eid sl hside, out_edge_nodeVal_new_edge,
    if_neg (fun hc => by omega),
    nodeVal_updateNode_self _ _ (by simp [Geometry.updateNode, Geometry.updateEdge])]
  rfl

theorem split_left_new_node_inc (g : Geometry) (eid : Nat) (sl : Int)
    (hside : (g.edgeVal eid).side = Side.Left) :
    (((g.split_edge eid sl).fst).nodeVal g.nodes.length).inc_edge =
      some g.edges.length := by
  rw [split_edge_left_eq g eid sl hside, inc_edge_nodeVal_new_edge,
    if_pos ⟨rfl, by simp [Geometry.updateNode, Geometry.updateEdge]⟩]
  congr 1
  simp [Geometry.updateNode, Geometry.updateEdge]

theorem split_left_new_node_point (g : Geometry) (eid : Nat) (sl : Int)
    (hside : (g.edgeVal eid).side = Side.Left)
    (hsrc : (g.edgeVal eid).source < g.nodes.length) :
    (((g.split_edge eid sl).fst).nodeVal g.nodes.length).point =
      Point.new (g.nodeVal (g.edgeVal eid).source).x sl := by
  rw [split_edge_left_eq g eid sl hside, point_nodeVal_new_edge,
    nodeVal_updateNode_self _ _ (by simp [Geometry.updateNode, Geometry.updateEdge]),
    nodeVal_updateNode_ne _ (fun hc => by omega), nodeVal_updateEdge,
    nodeVal_append_self]
  rfl

theorem split_right_new_node_out (g : Geometry) (eid : Nat) (sl : Int)
    (hside : (g.edgeVal eid).side = Side.Right) :
    (((g.split_edge eid sl).fst).nodeVal g.nodes.length).out_edge =
      some g.edges.length := by
  rw [split_edge_right_eq g eid sl hside, out_edge_nodeVal_new_edge,
    if_pos ⟨rfl, by simp [Geometry.updateNode, Geometry.updateEdge]⟩]
  congr 1
  simp [Geometry.updateNode, Geometry.updateEdge]

theorem split_right_new_node_inc (g : Geometry) (eid : Nat) (sl : Int)
    (hside : (g.edgeVal eid).side = Side.Right)
    (htgt : (g.edgeVal eid).target < g.nodes.length) :
    (((g.split_edge eid sl).fst).nodeVal g.nodes.length).inc_edge =
      some eid := by
  rw [split_edge_right_eq g eid sl hside, inc_edge_nodeVal_new_edge,
    if_neg (fun hc => by omega),
    nodeVal_updateNode_self _ _ (by simp [Geometry.updateNode, Geometry.updateEdge])]
  rfl

theorem split_right_new_node_point (g : Geometry) (eid : Nat) (sl : Int)
    (hside : (g.edgeVal eid).side = Side.Right)
    (htgt : (g.edgeVal eid).target < g.nodes.length) :
    (((g.split_edge eid sl).fst).nodeVal g.nodes.length).point =
      Point.new (g.nodeVal (g.edgeVal eid).target).x sl := by
  rw [split_edge_right_eq g eid sl hside, point_nodeVal_new_edge,
    nodeVal_updateNode_self _ _ (by simp [Geometry.updateNode, Geometry.updateEdge]),
    nodeVal_updateNode_ne _ (fun hc => by omega), nodeVal_updateEdge,
    nodeVal_append_self]
  rfl

theorem split_edge_nodeVal_id {g : Geometry} (eid : Nat) (sl : Int)
    (j : Nat) (hj : j < g.nodes.length) :
    (((g.split_edge eid sl).fst).nodeVal j).id = (g.nodeVal j).id := by
  cases hside : (g.edgeVal eid).side with
  | Left =>
    rw [split_edge_left_eq g eid sl hside, id_nodeVal_new_edge,
      nodeVal_field_updateNode g.nodes.length j
        (fun nd => nd.set_out_edge eid) Node.id (fun n => rfl),
      nodeVal_field_updateNode (g.edgeVal eid).source j
        (fun nd => (nd.take_out_edge).snd) Node.id (fun n => rfl),
      nodeVal_updateEdge, nodeVal_append_lt _ _ _ hj]
  | Right =>
    rw [split_edge_right_eq g eid sl hside, id_nodeVal_new_edge,
      nodeVal_field_updateNode g.nodes.length j
        (fun nd => nd.set_inc_edge eid) Node.id (fun n => rfl),
      nodeVal_field_updateNode (g.edgeVal eid).target j
        (fun nd => (nd.take_in_edge).snd) Node.id (fun n => rfl),
      nodeVal_updateEdge, nodeVal_append_lt _ _ _ hj]

theorem split_edge_new_node_id {g : Geometry} (eid : Nat) (sl : Int) :
    (((g.split_edge eid sl).fst).nodeVal g.nodes.length).id =
      g.nodes.length := by
  cases hside : (g.edgeVal eid).side with
  | Left =>
    rw [split_edge_left_eq g eid sl hside, id_nodeVal_new_edge,
      nodeVal_field_updateNode g.nodes.length g.nodes.length
        (fun nd => nd.set_out_edge eid) Node.id (fun n => rfl),
      nodeVal_field_updateNode (g.edgeVal eid).source g.nodes.length
        (fun nd => (nd.take_out_edge).snd) Node.id (fun n => rfl),
      nodeVal_updateEdge, nodeVal_append_self]
    rfl
  | Right =>
    rw [split_edge_right_eq g eid sl hside, id_nodeVal_new_edge,
      nodeVal_field_updateNode g.nodes.length g.nodes.length
        (fun nd => nd.set_inc_edge eid) Node.id (fun n => rfl),
      nodeVal_field_updateNode (g.edgeVal eid).target g.nodes.length
        (fun nd => (nd.take_in_edge).snd) Node.id (fun n => rfl),
      nodeVal_updateEdge, nodeVal_append_self]
    rfl

theorem split_edge_edgeVal_frame {g : Geometry} (eid : Nat) (sl : Int)
    {i : Nat} (hi : i < g.edges.length) (hne : i ≠ eid) :
    ((g.split_edge eid sl).fst).edgeVal i = g.edgeVal i := by
  cases hside : (g.edgeVal eid).side with
  | Left =>
    rw [split_edge_left_eq g eid sl hside,
      edgeVal_new_edge_lt _ _ _ _ i g.edges.length
        (List.length_set g.edges eid _) hi]
    exact getD_set_ne g.edges _ _ (fun h => hne h.symm)
  | Right =>
    rw [split_edge_right_eq g eid sl hside,
      edgeVal_new_edge_lt _ _ _ _ i g.edges.length
        (List.length_set g.edges eid _) hi]
    exact getD_set_ne g.edges _ _ (fun h => hne h.symm)

theorem split_edge_stored_id {g : Geometry} (eid : Nat) (sl : Int)
    (he : eid < g.edges.length) :
    (((g.split_edge eid sl).fst).edgeVal eid).id = (g.edgeVal eid).id := by
  cases hside : (g.edgeVal eid).side with
  | Left =>
    rw [split_edge_left_stored g eid sl hside he]
    rfl
  | Right =>
    rw [split_edge_right_stored g eid sl hside he]
    rfl

end SplitHelpers

section ScanHelpers

theorem scanSideLoop_no_qual (g : Geometry) (sl : Int) :
    ∀ (fuel : Nat) (ae : ActiveEdges),
      (∀ id ∈ ae.edges, ¬ QualifiesAsLeft g sl id) →
      (Decomposer.scanForEdgeOnSideLoop g sl Side.Left fuel ae).snd = none ∧
      (Decomposer.scanForEdgeOnSideLoop g sl Side.Left fuel ae).fst.edges
        = ae.edges := by
  intro fuel
  induction fuel with
  | zero => intro ae _; exact ⟨rfl, rfl⟩
  | succ fuel ih =>
    intro ae hq
    cases hpeek : ae.peek with
    | none =>
      simp [Decomposer.scanForEdgeOnSideLoop, ActiveEdges.next, hpeek]
    | some id =>
      have hmem : id ∈ ae.edges := List.get?_mem hpeek
      have hnq : ¬ ((g.edgeVal id).side = Side.Left ∧
          (g.edgeVal id).src_y g ≠ sl) := hq id hmem
      simp only [Decomposer.scanForEdgeOnSideLoop, ActiveEdges.next, hpeek,
        if_neg hnq]
      exact ih ae.increment hq

theorem scanEdgesLoop_no_qual (g : Geometry) (sl : Int) :
    ∀ (fuel : Nat) (ae : ActiveEdges) (rects : List Rect),
      (∀ id ∈ ae.edges, ¬ QualifiesAsLeft g sl id) →
      (Decomposer.scanEdgesLoop sl fuel g ae rects).1 = g ∧
      (Decomposer.scanEdgesLoop sl fuel g ae rects).2.2 = rects := by
  intro fuel
  cases fuel with
  | zero => intro ae rects _; exact ⟨rfl, rfl⟩
  | succ fuel =>
    intro ae rects hq
    by_cases hfin : ae.finished
    · simp [Decomposer.scanEdgesLoop, hfin]
    · have hscan := scanSideLoop_no_qual g sl (ae.edges.length + 1) ae hq
      have hpair : Decomposer.scan_for_edge_on_side g sl Side.Left ae =
          ((Decomposer.scan_for_edge_on_side g sl Side.Left ae).fst, none) :=
        Prod.ext rfl hscan.1
      simp only [Decomposer.scanEdgesLoop]
      rw [if_neg hfin, hpair]
      exact ⟨rfl, rfl⟩

theorem scanLeftLoop_no_qual (g : Geometry) (sl : Int) :
    ∀ (fuel : Nat) (s : EdgeScans) (ae : ActiveEdges),
      (∀ id ∈ ae.edges, ¬ QualifiesAsLeft g sl id) →
      ae.cursor ≤ ae.edges.length →
      ae.edges.length < fuel + ae.cursor →
      ∃ s', EdgeScans.scanLeftLoop g sl fuel s ae =
        (s', ⟨ae.edges, ae.edges.length⟩) := by
  intro fuel
  induction fuel with
  | zero =>
    intro s ae _ hc hlt
    omega
  | succ fuel ih =>
    intro s ae hq hc hlt
    cases hpeek : ae.peek with
    | none =>
      have hlen : ae.edges.length ≤ ae.cursor := List.get?_eq_none.mp hpeek
      have hcc : ae.cursor = ae.edges.length := by omega
      refine ⟨s, ?_⟩
      simp only [EdgeScans.scanLeftLoop, ActiveEdges.next, hpeek]
      rw [show ae = ⟨ae.edges, ae.edges.length⟩ from by rw [← hcc]]
    | some id =>
      have hcl : ae.cursor < ae.edges.length := by
        by_contra hcon
        rw [show ae.peek = none from List.get?_eq_none.mpr (by omega)]
          at hpeek
        cases hpeek
      have hmem : id ∈ ae.edges := List.get?_mem hpeek
      have hnq : ¬ ((g.edgeVal id).side = Side.Left ∧
          (g.edgeVal id).src_y g ≠ sl) := hq id hmem
      simp only [EdgeScans.scanLeftLoop, ActiveEdges.next, hpeek, if_neg hnq]
      exact ih _ ae.increment hq (by simpa [ActiveEdges.increment] using hcl)
        (by simp [ActiveEdges.increment]; omega)

theorem split_edge_nodeVal_frame {g : Geometry} (eid : Nat) (sl : Int)
    {j : Nat} (hj : j < g.nodes.length)
    (hne : j ≠ g.splitReplacedNode eid) :
    ((g.split_edge eid sl).fst).nodeVal j = g.nodeVal j := by
  cases hside : (g.edgeVal eid).side with
  | Left =>
    rw [Geometry.splitReplacedNode, hside] at hne
    rw [split_edge_left_eq g eid sl hside,
      nodeVal_new_edge_untouched _ _ _ hne (by omega),
      nodeVal_updateNode_ne _ (fun hc => by omega),
      nodeVal_updateNode_ne _ (fun hc => hne hc.symm),
      nodeVal_updateEdge, nodeVal_append_lt _ _ _ hj]
  | Right =>
    rw [Geometry.splitReplacedNode, hside] at hne
    rw [split_edge_right_eq g eid sl hside,
      nodeVal_new_edge_untouched _ _ _ (by omega) hne,
      nodeVal_updateNode_ne _ (fun hc => by omega),
      nodeVal_updateNode_ne _ (fun hc => hne hc.symm),
      nodeVal_updateEdge, nodeVal_append_lt _ _ _ hj]

theorem scanLeftLoop_edges (g : Geometry) (sl : Int) :
    ∀ (fuel : Nat) (s : EdgeScans) (ae : ActiveEdges),
      ((EdgeScans.scanLeftLoop g sl fuel s ae).2).edges = ae.edges := by
  intro fuel
  induction fuel with
  | zero => intro s ae; rfl
  | succ fuel ih =>
    intro s ae
    cases hpeek : ae.peek with
    | none => simp [EdgeScans.scanLeftLoop, ActiveEdges.next, hpeek]
    | some id =>
      simp only [EdgeScans.scanLeftLoop, ActiveEdges.next, hpeek]
      by_cases hcond : (g.edgeVal id).side = Side.Left ∧
          (g.edgeVal id).src_y g ≠ sl
      · rw [if_pos hcond]
        rfl
      · rw [if_neg hcond]
        exact ih _ ae.increment

theorem scanRightLoop_edges (g : Geometry) (sl : Int) :
    ∀ (fuel : Nat) (s : EdgeScans) (ae : ActiveEdges),
      ((EdgeScans.scanRightLoop g sl fuel s ae).2).edges = ae.edges := by
  intro fuel
  induction fuel with
  | zero => intro s ae; rfl
  | succ fuel ih =>
    intro s ae
    cases hpeek : ae.peek with
    | none => simp [EdgeScans.scanRightLoop, ActiveEdges.next, hpeek]
    | some id =>
      simp only [EdgeScans.scanRightLoop, ActiveEdges.next, hpeek]
      by_cases hcond : (g.edgeVal id).side = Side.Right ∧
          (g.edgeVal id).tgt_y g ≠ sl
      · rw [if_pos hcond]
        rfl
      · rw [if_neg hcond]
        exact ih _ ae.increment

theorem scan_for_edges_fst_edges (s : EdgeScans) (g : Geometry)
    (ae : ActiveEdges) (sl : Int) :
    ((s.scan_for_edges ae sl g)).1.edges = ae.edges := by
  unfold EdgeScans.scan_for_edges
  rcases hL : EdgeScans.scanLeftLoop g sl (ae.edges.length + 1) s ae
    with ⟨s1, ae1⟩
  have h1 : ae1.edges = ae.edges := by
    have := scanLeftLoop_edges g sl (ae.edges.length + 1) s ae
    rw [hL] at this
    exact this
  dsimp only
  by_cases hfin : ae1.finished
  · simp [hfin, h1]
  · rcases hR : EdgeScans.scanRightLoop g sl (ae1.edges.length + 1) s1 ae1
      with ⟨s2, ae2⟩
    have h2 : ae2.edges = ae1.edges := by
      have := scanRightLoop_edges g sl (ae1.edges.length + 1) s1 ae1
      rw [hR] at this
      exact this
    simp [hfin, hR, h2, h1]

theorem scan_and_split_ae_edges (s : EdgeScans) (g : Geometry)
    (ae : ActiveEdges) (sl : Int) :
    ((s.scan_and_split g ae sl).2.1).edges = ae.edges := by
  unfold EdgeScans.scan_and_split
  rcases hS : s.scan_for_edges ae sl g with ⟨ae1, r⟩
  have h1 : ae1.edges = ae.edges := by
    have := scan_for_edges_fst_edges s g ae sl
    rw [hS] at this
    exact this
  cases r with
  | ReturnRects => exact h1
  | ContinueLoop s2 => exact h1
  | NewRect r2 => exact h1
  | ContinueSplit s2 =>
    dsimp only
    cases hC : s2.check_both_splittable g ae1 sl with
    | ReturnRects => exact h1
    | ContinueLoop s3 => exact h1
    | NewRect r2 => exact h1
    | ContinueSplit s3 => exact h1

end ScanHelpers

/-! Claim theorems. -/

/-- C1: for the 6-point L-shaped input `(0,0),(2,0),(2,2),(1,2),(1,1),(0,1)`
the claim demands `Ok` with exactly 2 rectangles of total area 3; the code
instead returns `Ok` with an empty rectangle list (with this winding the
`Left` wall sorts to the end of the active-edge list, so no `Left`/`Right`
pair is ever found and every scanline pass returns without emitting). -/
theorem C1_decompose_spec_lshape_returns_no_rects :
    Decomposer.decompose lshapeSpec = DecompResult.ok [] := by
  rfl

/-- C2 counterexample: `collinear4` has more than 3 points, yet
`Geometry::new` does not construct a geometry on it — the edge-construction
loop never sets an outgoing edge and never terminates (the embedding's
fuelled loop returns `none`; the amended theorem shows `none` results for
every fuel). -/
theorem C2_counterexample_collinear_input_never_constructs :
    3 < collinear4.length ∧ Geometry.new collinear4 = none := by
  exact ⟨by decide, by rfl⟩

/-- C2 (amended): `Geometry::new` returns `IsAlreadySimple` for every input
of exactly 3 points and `NotEnoughPoints` for every input of fewer than 3
points (in both cases `decompose` propagates the error unchanged); for more
than 3 points it constructs a `Geometry` provided at least one cyclically
consecutive pair of points differs in y; when every cyclically consecutive
pair shares its y, the edge-construction loop never creates an outgoing
edge and never terminates (it yields `none` at every fuel). -/
theorem C2_amended_geometry_new_behaviour :
    (∀ points : List Point, points.length = 3 →
      Geometry.new points = some (Except.error DecompErr.IsAlreadySimple) ∧
      Decomposer.decompose points =
        DecompResult.err DecompErr.IsAlreadySimple) ∧
    (∀ points : List Point, points.length < 3 →
      Geometry.new points = some (Except.error DecompErr.NotEnoughPoints) ∧
      Decomposer.decompose points =
        DecompResult.err DecompErr.NotEnoughPoints) ∧
    (∀ points : List Point, 3 < points.length →
      (∃ i, i < points.length ∧ cyclicYDiffers points i) →
      ∃ g, Geometry.new points = some (Except.ok g)) ∧
    (∀ points : List Point, 3 < points.length →
      (∀ i, i < points.length → ¬ cyclicYDiffers points i) →
      ∀ fuel, Geometry.initEdgesLoop fuel points.length
          (Geometry.empty.initialize_nodes points) 0 1 = none) := by
  refine ⟨?_, ?_, ?_, ?_⟩
  · intro points h
    have hnew : Geometry.new points =
        some (Except.error DecompErr.IsAlreadySimple) := by
      unfold Geometry.new
      rw [if_neg (by omega), if_pos h]
    exact ⟨hnew, by simp [Decomposer.decompose, hnew]⟩
  · intro points h
    have hnew : Geometry.new points =
        some (Except.error DecompErr.NotEnoughPoints) := by
      unfold Geometry.new
      rw [if_neg (by omega), if_neg (by omega)]
    exact ⟨hnew, by simp [Decomposer.decompose, hnew]⟩
  · intro points hn hex
    obtain ⟨i, hin, hdiff⟩ := hex
    have hex' : ∃ j, cyclicYDiffers points j := ⟨i, hdiff⟩
    set p := Nat.find hex' with hpdef
    have hp : cyclicYDiffers points p := Nat.find_spec hex'
    have hmin : ∀ j, j < p → ¬ cyclicYDiffers points j :=
      fun j hj => Nat.find_min hex' hj
    have hpn : p < points.length :=
      lt_of_le_of_lt (Nat.find_min' hex' hdiff) hin
    have hquiet := initLoop_quiet points hn p (by omega) hmin
      (points.length + 1)
    rw [Nat.mod_eq_of_lt hpn] at hquiet
    have hout := init_nodes_out_edge points p
    have hws0 :
        ((Geometry.empty.initialize_nodes points).nodeVal p).which_side
          ((Geometry.empty.initialize_nodes points).nodeVal
            ((p + 1) % points.length)) =
        (points.getD p default).which_side
          (points.getD ((p + 1) % points.length) default) := by
      unfold Node.which_side
      rw [init_nodes_point points p hpn,
        init_nodes_point points _ (Nat.mod_lt _ (by omega))]
    obtain ⟨side, hside⟩ :=
      which_side_isSome_of_ne (points.getD p default)
        (points.getD ((p + 1) % points.length) default) hp
    rw [initEdgesLoop_step_some points.length points.length _ p _ side hout
      (by rw [hws0]; exact hside)] at hquiet
    have hg1len :
        ((Geometry.empty.initialize_nodes points).new_edge p
          ((p + 1) % points.length) side).fst.nodes.length =
        points.length := by
      rw [new_edge_fst_nodes_length, initialize_nodes_length]
      simp [Geometry.empty]
    have hidx : (((p + 1) % points.length) + (points.length - 1))
        % points.length = p := by
      rw [Nat.mod_add_mod]
      have : p + 1 + (points.length - 1) = p + points.length := by omega
      rw [this, Nat.add_mod_right, Nat.mod_eq_of_lt hpn]
    have hflag :
        ((((Geometry.empty.initialize_nodes points).new_edge p
            ((p + 1) % points.length) side).fst.nodeVal
          ((((p + 1) % points.length) + (points.length - 1))
            % points.length)).out_edge).isSome = true := by
      rw [hidx, out_edge_nodeVal_new_edge,
        if_pos ⟨rfl, by rw [initialize_nodes_length]; omega⟩]
      rfl
    obtain ⟨gr, hgr⟩ := initLoop_succ points.length (by omega)
      (points.length - 1)
      ((Geometry.empty.initialize_nodes points).new_edge p
        ((p + 1) % points.length) side).fst
      ((p + 1) % points.length) hg1len (Nat.mod_lt _ (by omega)) hflag
    rw [show points.length - 1 + 1 = points.length by omega] at hgr
    rw [hgr] at hquiet
    have hfinal := initEdgesLoop_mono points.length
      ((points.length + 1) + p) (2 * points.length + 2) _ 0 1 gr
      (by omega) hquiet
    refine ⟨gr, ?_⟩
    unfold Geometry.new
    rw [if_pos (by omega)]
    unfold Geometry.initialize_nodes_and_edges
    rw [hfinal]
    rfl
  · intro points hn hsame fuel
    have h := initLoop_allsame_none points hn hsame fuel 0 (by omega)
    rw [show (0 + 1) % points.length = 1 from
      Nat.mod_eq_of_lt (by omega)] at h
    exact h

/-- C2 witness: the amended behaviour at concrete inputs — a 3-point input
errs `IsAlreadySimple`, a 2-point input errs `NotEnoughPoints`, the
6-point `lshapeMain` (whose pair 0 differs in y) constructs a geometry,
and the all-one-y `collinear4` input loops forever (`none` at fuel 5). -/
theorem C2_amended_geometry_new_behaviour_witness :
    Geometry.new [⟨0, 0⟩, ⟨0, 1⟩, ⟨1, 1⟩] =
      some (Except.error DecompErr.IsAlreadySimple) ∧
    Geometry.new [⟨0, 0⟩, ⟨0, 1⟩] =
      some (Except.error DecompErr.NotEnoughPoints) ∧
    (Geometry.new lshapeMain).isSome = true ∧
    Geometry.initEdgesLoop 5 collinear4.length
      (Geometry.empty.initialize_nodes collinear4) 0 1 = none := by
  obtain ⟨h1, h2, h3, h4⟩ := C2_amended_geometry_new_behaviour
  obtain ⟨g, hg⟩ := h3 lshapeMain (by decide) ⟨0, by decide, by decide⟩
  exact ⟨(h1 _ (by decide)).1, (h2 _ (by decide)).1,
    by rw [hg]; rfl, h4 collinear4 (by decide) (by decide) 5⟩

/-- C3 counterexample: inserting edges `0`, `1`, `2` (source x `5`, `3`,
`1`) in that order into an initially empty `ActiveEdges` leaves the list
`[1, 2, 0]` (source x `3, 1, 5`), which is not non-decreasing in source x:
`insert` scans from the cursor left behind by the previous insert, not from
the front. -/
theorem C3_counterexample_insert_sequence_breaks_sort_order :
    ¬ SortedBySrcX unsortedDemoGeometry
      ((((ActiveEdges.mk [] 0).insert unsortedDemoGeometry 0).insert
          unsortedDemoGeometry 1).insert unsortedDemoGeometry 2).edges := by
  decide

/-- C3 (amended): `ActiveEdges::insert` scans forward from the current
cursor, so an arbitrary sequence of inserts need not leave the list sorted
(see the counterexample); when an insert is performed with the cursor at
`0` (the state `add_active_edges` establishes before each scanline batch),
it inserts before the first strictly-greater source x and preserves the
non-decreasing source-x order at every index. -/
theorem C3_amended_insert_at_cursor_zero_preserves_sort
    (g : Geometry) (ae : ActiveEdges) (id : Nat) (hc : ae.cursor = 0)
    (hs : SortedBySrcX g ae.edges) :
    SortedBySrcX g ((ae.insert g id).edges) := by
  have hedges : (ae.insert g id).edges =
      (ActiveEdges.insertScan g (ActiveEdges.srcXKey g id) id
        (ae.edges.length + 1) ae.edges ae.cursor).fst := rfl
  rw [hedges, hc,
    insertScan_eq_oins g _ id _ ae.edges 0 (by omega) (by omega)]
  simpa using oins_sorted g id ae.edges hs

/-- C3 witness: inserting edge `2` (source x `1`) into the sorted list
`[1, 0]` (source x `3, 5`) with the cursor at `0` keeps the list sorted. -/
theorem C3_amended_insert_at_cursor_zero_preserves_sort_witness :
    (ActiveEdges.mk [1, 0] 0).cursor = 0 ∧
    SortedBySrcX unsortedDemoGeometry [1, 0] ∧
    SortedBySrcX unsortedDemoGeometry
      ((ActiveEdges.mk [1, 0] 0).insert unsortedDemoGeometry 2).edges :=
  ⟨rfl, by decide, C3_amended_insert_at_cursor_zero_preserves_sort
    unsortedDemoGeometry (ActiveEdges.mk [1, 0] 0) 2 rfl (by decide)⟩

/-- C4 counterexample: splitting the `Left` edge `(0,0) → (0,2)` of
`splitDemoGeometry` at scanline `1` (which it strictly contains) leaves the
new node `2` with BOTH incident slots set — outgoing to the original edge
and incoming from the brand-new edge — not exactly one. -/
theorem C4_counterexample_new_node_has_both_slots_set :
    (splitDemoGeometry.edgeVal 0).scanline_strictly_inside
        splitDemoGeometry 1 = true ∧
    incidentSlotsSet
        (((Geometry.split_edge splitDemoGeometry 0 1).fst).nodeVal 2) = 2 ∧
    incidentSlotsSet
        (((Geometry.split_edge splitDemoGeometry 0 1).fst).nodeVal 2) ≠ 1 := by
  decide

/-- C4 (amended): after `split_edge(e, scanline)` on an edge that strictly
contains the scanline, the new node at (replaced endpoint's x, scanline)
has BOTH incident slots set — the complementary slot (outgoing for a `Left`
split, incoming for a `Right` split) holds the original edge, and the other
slot holds the brand-new edge; the combined endpoints of the two resulting
edges equal the original edge's endpoints plus the new node; no node or
edge is deleted (both arenas only grow). -/
theorem C4_amended_split_preserves_connectivity (g : Geometry) (eid : Nat)
    (sl : Int) (he : eid < g.edges.length)
    (hsrc : (g.edgeVal eid).source < g.nodes.length)
    (htgt : (g.edgeVal eid).target < g.nodes.length)
    (hstrict : (g.edgeVal eid).scanline_strictly_inside g sl = true) :
    (g.split_edge eid sl).fst.nodes.length = g.nodes.length + 1 ∧
    (g.split_edge eid sl).fst.edges.length = g.edges.length + 1 ∧
    (((g.split_edge eid sl).fst).nodeVal g.nodes.length).point =
      Point.new (g.nodeVal (g.splitReplacedNode eid)).x sl ∧
    incidentSlotsSet (((g.split_edge eid sl).fst).nodeVal g.nodes.length)
      = 2 ∧
    ((g.edgeVal eid).side = Side.Left →
      (((g.split_edge eid sl).fst).nodeVal g.nodes.length).out_edge =
          some eid ∧
      (((g.split_edge eid sl).fst).nodeVal g.nodes.length).inc_edge =
          some g.edges.length) ∧
    ((g.edgeVal eid).side = Side.Right →
      (((g.split_edge eid sl).fst).nodeVal g.nodes.length).inc_edge =
          some eid ∧
      (((g.split_edge eid sl).fst).nodeVal g.nodes.length).out_edge =
          some g.edges.length) ∧
    ({((g.split_edge eid sl).fst.edgeVal eid).source,
      ((g.split_edge eid sl).fst.edgeVal eid).target,
      (g.split_edge eid sl).snd.source,
      (g.split_edge eid sl).snd.target} : Finset Nat) =
      {(g.edgeVal eid).source, (g.edgeVal eid).target, g.nodes.length} := by
  refine ⟨split_edge_nodes_length g eid sl, split_edge_edges_length g eid sl,
    ?_, ?_, ?_, ?_, ?_⟩
  · cases hside : (g.edgeVal eid).side with
    | Left =>
      rw [split_left_new_node_point g eid sl hside hsrc]
      simp only [Geometry.splitReplacedNode, hside]
    | Right =>
      rw [split_right_new_node_point g eid sl hside htgt]
      simp only [Geometry.splitReplacedNode, hside]
  · cases hside : (g.edgeVal eid).side with
    | Left =>
      unfold incidentSlotsSet
      rw [split_left_new_node_inc g eid sl hside,
        split_left_new_node_out g eid sl hside hsrc]
      rfl
    | Right =>
      unfold incidentSlotsSet
      rw [split_right_new_node_inc g eid sl hside htgt,
        split_right_new_node_out g eid sl hside]
      rfl
  · intro hside
    exact ⟨split_left_new_node_out g eid sl hside hsrc,
      split_left_new_node_inc g eid sl hside⟩
  · intro hside
    exact ⟨split_right_new_node_inc g eid sl hside htgt,
      split_right_new_node_out g eid sl hside⟩
  · cases hside : (g.edgeVal eid).side with
    | Left =>
      rw [split_edge_left_stored g eid sl hside he,
        split_edge_left_snd g eid sl hside]
      simp only [Edge.set_source]
      ext a
      simp
      tauto
    | Right =>
      rw [split_edge_right_stored g eid sl hside he,
        split_edge_right_snd g eid sl hside]
      simp only [Edge.set_target]
      ext a
      simp
      tauto

/-- C4 witness: the amended connectivity facts instantiated on
`splitDemoGeometry`'s `Left` edge `0` split at scanline `1`. -/
theorem C4_amended_split_preserves_connectivity_witness :
    (splitDemoGeometry.split_edge 0 1).fst.nodes.length = 3 ∧
    (splitDemoGeometry.split_edge 0 1).fst.edges.length = 2 ∧
    incidentSlotsSet
      (((splitDemoGeometry.split_edge 0 1).fst).nodeVal 2) = 2 ∧
    ({((splitDemoGeometry.split_edge 0 1).fst.edgeVal 0).source,
      ((splitDemoGeometry.split_edge 0 1).fst.edgeVal 0).target,
      (splitDemoGeometry.split_edge 0 1).snd.source,
      (splitDemoGeometry.split_edge 0 1).snd.target} : Finset Nat) =
      {0, 1, 2} := by
  have h := C4_amended_split_preserves_connectivity splitDemoGeometry 0 1
    (by decide) (by decide) (by decide) (by decide)
  exact ⟨h.1, h.2.1, h.2.2.2.1, h.2.2.2.2.2.2⟩

/-- C5 (amended): `Geometry::split_edge(edge_id, scanline)` returns the
brand-new edge created by the split (the freshly allocated arena entry at
index `edges.length`, joining the old endpoint and the new node), not the
mutated original edge's stored value: the value stored for the passed-in
`edge_id` keeps its old id and differs from the returned edge. -/
theorem C5_amended_split_returns_fresh_edge (g : Geometry) (eid : Nat)
    (sl : Int) (he : eid < g.edges.length)
    (hid : (g.edgeVal eid).id = eid) :
    (g.split_edge eid sl).snd.id = g.edges.length ∧
    (g.split_edge eid sl).snd =
      ((g.split_edge eid sl).fst).edgeVal g.edges.length ∧
    (g.split_edge eid sl).snd.id ≠ eid ∧
    (g.split_edge eid sl).snd ≠
      ((g.split_edge eid sl).fst).edgeVal eid := by
  have hstored : (((g.split_edge eid sl).fst).edgeVal eid).id = eid := by
    cases hside : (g.edgeVal eid).side with
    | Left =>
      rw [split_edge_left_stored g eid sl hside he]
      exact hid
    | Right =>
      rw [split_edge_right_stored g eid sl hside he]
      exact hid
  refine ⟨split_edge_snd_id g eid sl, split_edge_snd_is_fresh_stored g eid sl,
    ?_, ?_⟩
  · rw [split_edge_snd_id g eid sl]
    omega
  · intro heq
    have hids := congrArg Edge.id heq
    rw [split_edge_snd_id g eid sl, hstored] at hids
    omega

/-- C5 witness: the amended facts at `splitDemoGeometry`'s edge `0`. -/
theorem C5_amended_split_returns_fresh_edge_witness :
    (splitDemoGeometry.split_edge 0 1).snd.id = 1 ∧
    (splitDemoGeometry.split_edge 0 1).snd =
      ((splitDemoGeometry.split_edge 0 1).fst).edgeVal 1 ∧
    (splitDemoGeometry.split_edge 0 1).snd ≠
      ((splitDemoGeometry.split_edge 0 1).fst).edgeVal 0 := by
  have h := C5_amended_split_returns_fresh_edge splitDemoGeometry 0 1
    (by decide) (by decide)
  exact ⟨h.1, h.2.1, h.2.2.2⟩

/-- C5 counterexample: `split_edge` on edge `0` of `splitDemoGeometry`
returns an edge whose id is `1` (the freshly allocated one) — not the value
now stored for the edge id `0` that was passed in. -/
theorem C5_counterexample_split_returns_fresh_edge_not_original :
    (Geometry.split_edge splitDemoGeometry 0 1).snd.id = 1 ∧
    (Geometry.split_edge splitDemoGeometry 0 1).snd.id ≠ 0 ∧
    (Geometry.split_edge splitDemoGeometry 0 1).snd ≠
      ((Geometry.split_edge splitDemoGeometry 0 1).fst).edgeVal 0 := by
  decide

/-- C6 counterexample: when no current active node exists at the scanline
update, the sweep loop panics (`unwrap` on `None`) instead of returning
`FailedScanlineUpdate` to the caller. -/
theorem C6_counterexample_missing_node_panics_not_errs :
    exhaustedDecomposer.active_nodes.peek = none ∧
    Decomposer.decomposeLoop 1 Geometry.empty exhaustedDecomposer [] =
      DecompResult.panic ∧
    Decomposer.decomposeLoop 1 Geometry.empty exhaustedDecomposer [] ≠
      DecompResult.err DecompErr.FailedScanlineUpdate := by
  decide

/-- C6 (amended): when no current active node exists at the scanline
update, the sweep does not return `FailedScanlineUpdate` — the `unwrap`
inside `update_scanline` panics (modelled as `none`); consequently neither
the sweep loop nor `decompose` ever returns the error
`FailedScanlineUpdate` (the variant is declared but never constructed). -/
theorem C6_amended_missing_node_panics_never_errs :
    (∀ (g : Geometry) (d : Decomposer), d.active_nodes.finished = true →
      Decomposer.update_scanline g d = none) ∧
    (∀ (fuel : Nat) (g : Geometry) (d : Decomposer) (rects : List Rect),
      Decomposer.decomposeLoop fuel g d rects ≠
        DecompResult.err DecompErr.FailedScanlineUpdate) ∧
    (∀ points : List Point,
      Decomposer.decompose points ≠
        DecompResult.err DecompErr.FailedScanlineUpdate) := by
  have hloop : ∀ (fuel : Nat) (g : Geometry) (d : Decomposer)
      (rects : List Rect),
      Decomposer.decomposeLoop fuel g d rects ≠
        DecompResult.err DecompErr.FailedScanlineUpdate := by
    intro fuel
    induction fuel with
    | zero =>
      intro g d rects h
      simp [Decomposer.decomposeLoop] at h
    | succ fuel ih =>
      intro g d rects h
      cases hupd : Decomposer.update_scanline g d with
      | none => simp [Decomposer.decomposeLoop, hupd] at h
      | some d1 =>
        simp only [Decomposer.decomposeLoop, hupd] at h
        split at h
        · simp at h
        · exact ih _ _ _ h
  have hnew : ∀ points : List Point,
      Geometry.new points ≠
        some (Except.error DecompErr.FailedScanlineUpdate) := by
    intro points h
    unfold Geometry.new at h
    split_ifs at h with h1 h2
    · cases hinit : Geometry.initialize_nodes_and_edges points with
      | none => rw [hinit] at h; cases h
      | some g => rw [hinit] at h; cases h
    · cases h
    · cases h
  refine ⟨?_, hloop, ?_⟩
  · intro g d h
    have hc : d.active_nodes.cursor = d.active_nodes.nodes.length :=
      of_decide_eq_true h
    have hpeek : d.active_nodes.nodes.get? d.active_nodes.cursor = none :=
      List.get?_eq_none.mpr (by omega)
    simp [Decomposer.update_scanline, ActiveNodes.scanline, ActiveNodes.peek,
      ActiveNodes.peek_at, hpeek]
    omega
  · intro points h
    unfold Decomposer.decompose at h
    cases hn : Geometry.new points with
    | none => rw [hn] at h; cases h
    | some r =>
      cases r with
      | error e =>
        rw [hn] at h
        cases e with
        | NotEnoughPoints => cases h
        | IsAlreadySimple => cases h
        | FailedScanlineUpdate => exact hnew points hn
      | ok g =>
        rw [hn] at h
        exact hloop _ _ _ _ h

/-- C6 witness: the amended behaviour at concrete states — the exhausted
decomposer state makes `update_scanline` panic (`none`), and a concrete
full run never yields `FailedScanlineUpdate`. -/
theorem C6_amended_missing_node_panics_never_errs_witness :
    Decomposer.update_scanline Geometry.empty exhaustedDecomposer = none ∧
    Decomposer.decompose lshapeMain ≠
      DecompResult.err DecompErr.FailedScanlineUpdate :=
  ⟨C6_amended_missing_node_panics_never_errs.1 Geometry.empty
      exhaustedDecomposer rfl,
    C6_amended_missing_node_panics_never_errs.2.2 lshapeMain⟩

/-- C7 counterexample: in the `lshapeMain` run the very first scanline pass
exhausts the active edges without finding a qualifying `Left` edge (both
walls on scanline `0` are disqualified), so per the claim the entire
decomposition should terminate with the rectangles accumulated so far
(none); but the decomposition continues and finally returns two
rectangles. -/
theorem C7_counterexample_exhaustion_does_not_end_decomposition :
    (Decomposer.scan_for_edge_on_side lshapeMainGeometry 0 Side.Left
        (lshapeMainScanState.active_edges.reset_cursor)).snd = none ∧
    (Decomposer.scan_edges lshapeMainGeometry lshapeMainScanState []).2.2
      = [] ∧
    Decomposer.decompose lshapeMain =
      DecompResult.ok [⟨⟨0, 0⟩, ⟨2, 1⟩⟩, ⟨⟨1, 1⟩, ⟨2, 1⟩⟩] ∧
    ([⟨⟨0, 0⟩, ⟨2, 1⟩⟩, ⟨⟨1, 1⟩, ⟨2, 1⟩⟩] : List Rect) ≠ [] := by
  refine ⟨by rfl, by rfl, by rfl, by decide⟩

/-- C8: in `check_both_splittable`, when both candidate edges strictly
contain the scanline, the recorded left cursor is advanced by one; if the
advanced left cursor equals the right cursor the pairing attempt aborts
with `ContinueLoop` (restart phase 1) and no rectangle is emitted
(`ContinueLoop` is never a `NewRect`); otherwise the machine continues with
the advanced cursor recorded. -/
theorem C8_check_both_splittable_cursor_advance (s : EdgeScans)
    (g : Geometry) (ae : ActiveEdges) (sl : Int) (lc rc : Nat)
    (hlc : s.lc = some lc) (hrc : s.rc = some rc)
    (hl : (s.leGet).scanline_strictly_inside g sl = true)
    (hr : (s.reGet).scanline_strictly_inside g sl = true) :
    (lc + 1 = rc →
      s.check_both_splittable g ae sl =
        ScanResult.ContinueLoop { s with lc := some (lc + 1) }) ∧
    (lc + 1 ≠ rc →
      ∃ s', s.check_both_splittable g ae sl = ScanResult.ContinueSplit s' ∧
        s'.lc = some (lc + 1) ∧ s'.rc = s.rc ∧ s'.re = s.re) ∧
    (∀ (s₁ : EdgeScans) (r : Rect),
      ScanResult.ContinueLoop s₁ ≠ ScanResult.NewRect r) := by
  refine ⟨?_, ?_, fun s₁ r h => ScanResult.noConfusion h⟩
  · intro h
    simp [EdgeScans.check_both_splittable, hlc, hrc, hl, hr, h]
  · intro h
    cases hpeek : ae.peek_at (lc + 1) with
    | none =>
      refine ⟨{ s with lc := some (lc + 1) }, ?_, rfl, rfl, rfl⟩
      simp [EdgeScans.check_both_splittable, hlc, hrc, hl, hr, h, hpeek]
    | some id =>
      refine ⟨{ s with lc := some (lc + 1), le := some (g.edgeVal id) },
        ?_, rfl, rfl, rfl⟩
      simp [EdgeScans.check_both_splittable, hlc, hrc, hl, hr, h, hpeek]

/-- C8 witness: with both candidates the strictly-containing edge `0` of
`splitDemoGeometry`, left cursor `0` and right cursor `1`, the advanced
left cursor hits the right cursor and the attempt aborts with
`ContinueLoop`. -/
theorem C8_check_both_splittable_cursor_advance_witness :
    (⟨some (splitDemoGeometry.edgeVal 0), some (splitDemoGeometry.edgeVal 0),
        some 0, some 1⟩ : EdgeScans).check_both_splittable splitDemoGeometry
      (ActiveEdges.mk [0] 0) 1 =
    ScanResult.ContinueLoop
      ⟨some (splitDemoGeometry.edgeVal 0), some (splitDemoGeometry.edgeVal 0),
        some 1, some 1⟩ :=
  (C8_check_both_splittable_cursor_advance
    ⟨some (splitDemoGeometry.edgeVal 0), some (splitDemoGeometry.edgeVal 0),
      some 0, some 1⟩ splitDemoGeometry (ActiveEdges.mk [0] 0) 1 0 1
    rfl rfl (by decide) (by decide)).1 rfl

/-- C10: `Geometry::split_edge` mutates only the geometry arenas — it
grows each arena by exactly one and leaves every node slot other than the
replaced endpoint's and every edge slot other than the split edge's
unchanged; throughout `scan_and_split` the active-edge id sequence is
never modified (only the cursor moves), so in particular the freshly
created edge (id `edges.length`) is not inserted into the active set by
the split, and the fresh node id cannot be in any active-node set holding
only previously valid ids (`scan_and_split` never even receives the
active-node set). -/
theorem C10_split_touches_only_arenas :
    (∀ (s : EdgeScans) (g : Geometry) (ae : ActiveEdges) (sl : Int),
      ((s.scan_and_split g ae sl).2.1).edges = ae.edges) ∧
    (∀ (g : Geometry) (eid : Nat) (sl : Int),
      (g.split_edge eid sl).fst.nodes.length = g.nodes.length + 1 ∧
      (g.split_edge eid sl).fst.edges.length = g.edges.length + 1 ∧
      (∀ j, j < g.nodes.length → j ≠ g.splitReplacedNode eid →
        ((g.split_edge eid sl).fst).nodeVal j = g.nodeVal j) ∧
      (∀ i, i < g.edges.length → i ≠ eid →
        ((g.split_edge eid sl).fst).edgeVal i = g.edgeVal i)) ∧
    (∀ (s : EdgeScans) (g : Geometry) (ae : ActiveEdges) (sl : Int),
      (∀ id ∈ ae.edges, id < g.edges.length) →
      g.edges.length ∉ ((s.scan_and_split g ae sl).2.1).edges) ∧
    (∀ (an : ActiveNodes) (g : Geometry),
      (∀ id ∈ an.nodes, id < g.nodes.length) →
      g.nodes.length ∉ an.nodes) := by
  refine ⟨scan_and_split_ae_edges, ?_, ?_, ?_⟩
  · intro g eid sl
    exact ⟨split_edge_nodes_length g eid sl, split_edge_edges_length g eid sl,
      fun j hj hne => split_edge_nodeVal_frame eid sl hj hne,
      fun i hi hne => split_edge_edgeVal_frame eid sl hi hne⟩
  · intro s g ae sl hvalid hmem
    rw [scan_and_split_ae_edges s g ae sl] at hmem
    have := hvalid _ hmem
    omega
  · intro an g hvalid hmem
    have := hvalid _ hmem
    omega

/-- C10 witness: the frame facts at a concrete `scan_and_split` step and a
concrete split over `splitDemoGeometry`. -/
theorem C10_split_touches_only_arenas_witness :
    ((EdgeScans.initial.scan_and_split splitDemoGeometry
        ⟨[0], 0⟩ 1).2.1).edges = [0] ∧
    (splitDemoGeometry.split_edge 0 1).fst.nodes.length = 3 ∧
    splitDemoGeometry.edges.length ∉
      ((EdgeScans.initial.scan_and_split splitDemoGeometry
        ⟨[0], 0⟩ 1).2.1).edges ∧
    splitDemoGeometry.nodes.length ∉ (ActiveNodes.mk [0, 1] 0).nodes := by
  refine ⟨C10_split_touches_only_arenas.1 EdgeScans.initial
      splitDemoGeometry ⟨[0], 0⟩ 1,
    (C10_split_touches_only_arenas.2.1 splitDemoGeometry 0 1).1, ?_, ?_⟩
  · exact C10_split_touches_only_arenas.2.2.1 EdgeScans.initial
      splitDemoGeometry ⟨[0], 0⟩ 1 (by decide)
  · exact C10_split_touches_only_arenas.2.2.2 (ActiveNodes.mk [0, 1] 0)
      splitDemoGeometry (by decide)

/-- C9 (amended): arena-id self-consistency (each stored node/edge's `id`
field equals its slot index) is preserved by `Geometry`'s own allocation
and mutation operations — `new_node`, `new_edge` and `split_edge` — but it
is NOT preserved by `Decomposer::scan_edges`, whose
`geometry[edge.id] = new_edge` assignment stores the freshly allocated
edge's value (carrying the fresh id) into the split edge's old slot (see
the counterexample). -/
theorem C9_amended_geometry_ops_preserve_id_consistency (g : Geometry)
    (hg : IdConsistent g) :
    (∀ (p : Point) (io oo : Option Nat),
      IdConsistent (g.new_node p io oo).fst) ∧
    (∀ (s t : Nat) (ty : Side), IdConsistent (g.new_edge s t ty).fst) ∧
    (∀ (eid : Nat) (sl : Int), IdConsistent (g.split_edge eid sl).fst) := by
  refine ⟨?_, ?_, ?_⟩
  · intro p io oo
    constructor
    · intro i hi
      have hlen : (g.new_node p io oo).fst.nodes.length =
          g.nodes.length + 1 := by
        rw [new_node_fst_nodes]
        simp
      rw [hlen] at hi
      by_cases hile : i < g.nodes.length
      · rw [nodeVal_new_node_lt p io oo hile]
        exact hg.1 i hile
      · have hieq : i = g.nodes.length := by omega
        subst hieq
        rw [nodeVal_new_node_self]
        rfl
    · intro i hi
      exact hg.2 i hi
  · intro s t ty
    constructor
    · intro i hi
      rw [new_edge_fst_nodes_length] at hi
      rw [id_nodeVal_new_edge]
      exact hg.1 i hi
    · intro i hi
      rw [new_edge_fst_edges_length] at hi
      by_cases hile : i < g.edges.length
      · rw [show (g.new_edge s t ty).fst.edgeVal i = g.edgeVal i from by
          rw [edgeVal_new_edge]
          exact List.getD_append _ _ _ _ hile]
        exact hg.2 i hile
      · have hieq : i = g.edges.length := by omega
        subst hieq
        rw [edgeVal_new_edge, getD_append_self]
  · intro eid sl
    constructor
    · intro j hj
      rw [split_edge_nodes_length] at hj
      by_cases hjl : j < g.nodes.length
      · rw [split_edge_nodeVal_id eid sl j hjl]
        exact hg.1 j hjl
      · have hjeq : j = g.nodes.length := by omega
        subst hjeq
        exact split_edge_new_node_id eid sl
    · intro i hi
      rw [split_edge_edges_length] at hi
      by_cases hil : i < g.edges.length
      · by_cases hieid : i = eid
        · subst hieid
          rw [split_edge_stored_id i sl hil]
          exact hg.2 i hil
        · rw [split_edge_edgeVal_frame eid sl hil hieid]
          exact hg.2 i hil
      · have hieq : i = g.edges.length := by omega
        subst hieq
        rw [← split_edge_snd_is_fresh_stored g eid sl,
          split_edge_snd_id g eid sl]

/-- C9 witness: id-consistency holds for `splitDemoGeometry` and is
preserved by a concrete `split_edge` and a concrete `new_node`. -/
theorem C9_amended_geometry_ops_preserve_id_consistency_witness :
    IdConsistent splitDemoGeometry ∧
    IdConsistent (splitDemoGeometry.split_edge 0 1).fst ∧
    IdConsistent (splitDemoGeometry.new_node ⟨5, 5⟩ none none).fst := by
  refine ⟨by decide, ?_, ?_⟩
  · exact (C9_amended_geometry_ops_preserve_id_consistency splitDemoGeometry
      (by decide)).2.2 0 1
  · exact (C9_amended_geometry_ops_preserve_id_consistency splitDemoGeometry
      (by decide)).1 ⟨5, 5⟩ none none

/-- C7 (amended): when the active-edge scan is exhausted before an edge
tagged `Left` with source y differing from the scanline is found, the
CURRENT scan pass ends and returns the rectangles accumulated so far
unchanged (and leaves the geometry untouched) — in the `EdgeScans` version
`scan_for_edges` signals `ReturnRects`; the outer `decompose` loop then
continues with the next scanline when active nodes remain, so the whole
decomposition terminates only if none remain (see the counterexample for a
run where it continues and emits rectangles later). -/
theorem C7_amended_no_left_edge_ends_scan_pass :
    (∀ (g : Geometry) (sl : Int) (fuel : Nat) (ae : ActiveEdges)
        (rects : List Rect),
      (∀ id ∈ ae.edges, ¬ QualifiesAsLeft g sl id) →
      (Decomposer.scanEdgesLoop sl fuel g ae rects).1 = g ∧
      (Decomposer.scanEdgesLoop sl fuel g ae rects).2.2 = rects) ∧
    (∀ (g : Geometry) (d : Decomposer) (rects : List Rect),
      (∀ id ∈ d.active_edges.edges, ¬ QualifiesAsLeft g d.scanline id) →
      (Decomposer.scan_edges g d rects).2.2 = rects) ∧
    (∀ (s : EdgeScans) (g : Geometry) (ae : ActiveEdges) (sl : Int),
      (∀ id ∈ ae.edges, ¬ QualifiesAsLeft g sl id) →
      ae.cursor ≤ ae.edges.length →
      (s.scan_for_edges ae sl g).snd = ScanResult.ReturnRects) := by
  refine ⟨fun g sl fuel ae rects hq => scanEdgesLoop_no_qual g sl fuel ae
    rects hq, ?_, ?_⟩
  · intro g d rects hq
    exact (scanEdgesLoop_no_qual g d.scanline
      (d.active_edges.reset_cursor.edges.length + 1)
      d.active_edges.reset_cursor rects hq).2
  · intro s g ae sl hq hc
    obtain ⟨s', hrun⟩ := scanLeftLoop_no_qual g sl (ae.edges.length + 1) s ae
      hq hc (by omega)
    simp only [EdgeScans.scan_for_edges, hrun]
    simp [ActiveEdges.finished]

/-- C7 witness: the amended behaviour at the `lshapeMain` scanline-0 state
(no qualifying left edge exists there): the decomposer-side pass returns
the empty accumulator unchanged and the `EdgeScans`-side phase 1 signals
`ReturnRects`. -/
theorem C7_amended_no_left_edge_ends_scan_pass_witness :
    (Decomposer.scan_edges lshapeMainGeometry lshapeMainScanState []).2.2
      = [] ∧
    (EdgeScans.initial.scan_for_edges
        ⟨lshapeMainScanState.active_edges.edges, 0⟩ 0
        lshapeMainGeometry).snd = ScanResult.ReturnRects := by
  refine ⟨C7_amended_no_left_edge_ends_scan_pass.2.1 lshapeMainGeometry
      lshapeMainScanState [] (by decide), ?_⟩
  exact C7_amended_no_left_edge_ends_scan_pass.2.2 EdgeScans.initial
    lshapeMainGeometry ⟨lshapeMainScanState.active_edges.edges, 0⟩ 0
    (by decide) (by decide)

/-- C9 counterexample: `clobberDemoGeometry` is id-consistent, but one
`scan_edges` pass (which splits the right wall and then executes
`geometry[right.edge.id] = new_edge`) leaves edge slot `1` holding an edge
whose `id` field is `2`. -/
theorem C9_counterexample_scan_edges_breaks_id_consistency :
    IdConsistent clobberDemoGeometry ∧
    (((Decomposer.scan_edges clobberDemoGeometry clobberDemoState
        []).1).edgeVal 1).id = 2 ∧
    ¬ IdConsistent
        (Decomposer.scan_edges clobberDemoGeometry clobberDemoState []).1 := by
  decide

end PolyDecomp
